import Mathlib

/-!
# Shallow embedding of the solitext Klondike solitaire core

Embeds the data model and operations of the Rust sources
(`src/cards.rs`, `src/game_state.rs`, `src/game_logic.rs`, `src/tui.rs`)
and proves the specification claims about them.

Representation conventions, used consistently below:
* A Rust `Vec` that acts as a card stack (the deck, the waste/`deck_drawn`,
  a tableau column, a foundation pile) is represented as a Lean `List` in
  *reversed* `Vec` order: the list head is the `Vec`'s last element, i.e.
  the top of the stack.  `Vec::push` is `List.cons`, `Vec::pop` removes the
  head, `Vec::last` is `List.head?`.
* A transient "in hand" `Vec<Card>` (the result of `take`, the argument of
  `receive`, the result of `peek_n`) is represented as a Lean `List` in
  plain `Vec` index order (list head = `Vec` index 0, the bottom-most of
  the removed run).
* Rust functions taking `&mut GameState` are embedded in state-passing
  style, returning the (possibly) updated state alongside their result.
* A Rust panic (out-of-range index via `.expect`, dealing from a too-short
  deck) is represented by an `Option` result being `none`.
* `u8`/`usize` values are `Nat`; the one truncating cast in the source
  (`max_count as u8` in `apply_column_selection_rules`) is `% 256`.
-/

/-- Rust `Suit` from `src/cards.rs`, with its `#[repr(u8)]` discriminants 0..3. -/
inductive Suit where
  | hearts
  | spades
  | diamonds
  | clubs
deriving DecidableEq, Repr

/-- The `#[repr(u8)]` discriminant of a `Suit` (`suit as usize`). -/
def Suit.toNat : Suit → Nat
  | .hearts => 0
  | .spades => 1
  | .diamonds => 2
  | .clubs => 3

/-- Rust `Suit::is_red` from `src/cards.rs`. -/
def Suit.is_red : Suit → Bool
  | .hearts | .diamonds => true
  | .spades | .clubs => false

/-- Rust `Rank` from `src/cards.rs`, with its `#[repr(u8)]` discriminants 1..13. -/
inductive Rank where
  | ace
  | r2
  | r3
  | r4
  | r5
  | r6
  | r7
  | r8
  | r9
  | r10
  | jack
  | queen
  | king
deriving DecidableEq, Repr

/-- The `#[repr(u8)]` discriminant of a `Rank` (`rank as usize`). -/
def Rank.toNat : Rank → Nat
  | .ace => 1
  | .r2 => 2
  | .r3 => 3
  | .r4 => 4
  | .r5 => 5
  | .r6 => 6
  | .r7 => 7
  | .r8 => 8
  | .r9 => 9
  | .r10 => 10
  | .jack => 11
  | .queen => 12
  | .king => 13

/-- Rust `Card` from `src/cards.rs`. -/
structure Card where
  suit : Suit
  rank : Rank
deriving DecidableEq, Repr

/-- The iteration order of `Suit::iter()` (declaration order). -/
def Suit.iterList : List Suit := [.hearts, .spades, .diamonds, .clubs]

/-- The iteration order of `Rank::iter()` (declaration order). -/
def Rank.iterList : List Rank :=
  [.ace, .r2, .r3, .r4, .r5, .r6, .r7, .r8, .r9, .r10, .jack, .queen, .king]

/-- Rust `Card::ordered_deck` from `src/cards.rs`, in plain `Vec` index order:
suit-major (Hearts, Spades, Diamonds, Clubs), rank-ascending within a suit. -/
def Card.ordered_deck : List Card :=
  Suit.iterList.flatMap fun suit => Rank.iterList.map fun rank => ⟨suit, rank⟩

/-- Rust `CardState` from `src/game_state.rs`. -/
inductive CardState where
  | faceUp
  | faceDown
deriving DecidableEq, Repr

/-- Rust `CardColumn` from `src/game_state.rs`: a `Vec<(Card, CardState)>`,
represented top-first (list head = top of the column). -/
abbrev CardColumn := List (Card × CardState)

/-- Rust `CardPile` from `src/game_state.rs`: a `Vec<Card>`, represented
top-first (list head = top of the pile). -/
abbrev CardPile := List Card

/-- Rust `GameMode` from `src/game_state.rs`; `DrawOne` is the `#[default]`. -/
inductive GameMode where
  | drawOne
  | drawThree
deriving DecidableEq, Repr

/-- Rust `GameState` from `src/game_state.rs`.  In the source `columns` is an
array `[CardColumn; 7]` and `card_piles` an array `[CardPile; 4]`; here they
are lists, and `GameState.WF` records the fixed lengths the Rust array types
guarantee.  `deck` and `deck_drawn` are top-first (list head = `Vec` last). -/
structure GameState where
  game_mode : GameMode
  deck : List Card
  deck_drawn : List Card
  columns : List CardColumn
  card_piles : List CardPile
deriving DecidableEq, Repr

/-- Rust `GameState::COLUMN_COUNT`. -/
def GameState.COLUMN_COUNT : Nat := 7

/-- Rust `GameState::CARD_PILES_COUNT`. -/
def GameState.CARD_PILES_COUNT : Nat := 4

/-- The shape guaranteed by the Rust array types `[CardColumn; 7]`,
`[CardPile; 4]`. -/
def GameState.WF (gs : GameState) : Prop :=
  gs.columns.length = GameState.COLUMN_COUNT ∧
    gs.card_piles.length = GameState.CARD_PILES_COUNT

instance : DecidablePred GameState.WF := fun _ =>
  inferInstanceAs (Decidable (_ ∧ _))

instance : DecidableEq (Except Unit Unit) := fun a b =>
  match a, b with
  | .ok (), .ok () => isTrue rfl
  | .error (), .error () => isTrue rfl
  | .ok (), .error () => isFalse (by intro h; cases h)
  | .error (), .ok () => isFalse (by intro h; cases h)

/-- Rust `Selection` from `src/tui.rs` (duplicated in `src/selection.rs`);
`index` and `card_count` are `u8` in the source. -/
inductive Selection where
  | deck
  | column (index : Nat) (card_count : Nat)
  | pile (index : Nat)
deriving DecidableEq, Repr

/-- Rust `Selection::same_collection` from `src/tui.rs`: same variant and, for
`Column`/`Pile`, same index. -/
def Selection.same_collection : Selection → Selection → Bool
  | .deck, .deck => true
  | .deck, _ => false
  | .column i _, .column j _ => i = j
  | .column _ _, _ => false
  | .pile i, .pile j => i = j
  | .pile _, _ => false

/-- Rust `Selection::card_count` from `src/tui.rs`. -/
def Selection.card_count : Selection → Nat
  | .column _ card_count => card_count
  | _ => 1

namespace CardColumn

/-- Rust `<CardColumn as CardCollection>::take` from `src/game_state.rs`.
Pops `count` times, collecting the popped cards; a failed pop aborts with
`Err` but the pops already performed persist (the source mutates through
`&mut self` before the `?`), so on failure with `count >` length the column
is left empty and the popped cards are dropped.  The `Ok` result is
bottom-first (`v.reverse()` in the source). -/
def take (count : Nat) (col : CardColumn) : Except Unit (List Card) × CardColumn :=
  if count ≤ List.length col then
    (.ok ((List.map Prod.fst (List.take count col)).reverse), List.drop count col)
  else
    (.error (), [])

/-- Rust `<CardColumn as CardCollection>::receive` from `src/game_state.rs`:
pushes each given card with state `FaceUp`; never fails. -/
def receive (cards : List Card) (col : CardColumn) : Except Unit Unit × CardColumn :=
  (.ok (), (List.map (fun c => (c, CardState.faceUp)) cards).reverse ++ col)

/-- Rust `<CardColumn as CardCollection>::peek` from `src/game_state.rs`. -/
def peek (col : CardColumn) : Option Card :=
  (List.head? col).map Prod.fst

/-- Rust `<CardColumn as CardCollection>::peek_n` from `src/game_state.rs`:
the top `count` cards, bottom-first, or `none` if fewer are present. -/
def peek_n (count : Nat) (col : CardColumn) : Option (List Card) :=
  if count ≤ List.length col then
    some ((List.map Prod.fst (List.take count col)).reverse)
  else
    none

/-- Rust `CardColumn::face_up_cards` from `src/game_state.rs`: the length of the
contiguous `FaceUp` run at the top of the column. -/
def face_up_cards (col : CardColumn) : Nat :=
  List.length (List.takeWhile (fun e => e.2 = CardState.faceUp) col)

end CardColumn

namespace CardPile

/-- Rust `<CardPile as CardCollection>::take` from `src/game_state.rs`: only
`count = 1` is allowed; popping an empty pile fails without mutation. -/
def take (count : Nat) (pile : CardPile) : Except Unit (List Card) × CardPile :=
  match count, pile with
  | 1, c :: rest => (.ok [c], rest)
  | 1, [] => (.error (), [])
  | _, p => (.error (), p)

/-- Rust `<CardPile as CardCollection>::receive` from `src/game_state.rs`: only a
single card is accepted; otherwise fails without mutation. -/
def receive (cards : List Card) (pile : CardPile) : Except Unit Unit × CardPile :=
  match cards with
  | [c] => (.ok (), c :: pile)
  | _ => (.error (), pile)

/-- Rust `<CardPile as CardCollection>::peek` from `src/game_state.rs`. -/
def peek (pile : CardPile) : Option Card :=
  List.head? pile

/-- Rust `<CardPile as CardCollection>::peek_n` from `src/game_state.rs`. -/
def peek_n (count : Nat) (pile : CardPile) : Option (List Card) :=
  if count ≤ List.length pile then some ((List.take count pile).reverse) else none

end CardPile

namespace CardVec

/-! `impl CardCollection for Vec<Card>` from `src/game_state.rs` (used for
`deck_drawn`); its bodies coincide with `CardPile`'s. -/

/-- Rust `<Vec<Card> as CardCollection>::take` from `src/game_state.rs`. -/
def take (count : Nat) (v : List Card) : Except Unit (List Card) × List Card :=
  match count, v with
  | 1, c :: rest => (.ok [c], rest)
  | 1, [] => (.error (), [])
  | _, p => (.error (), p)

/-- Rust `<Vec<Card> as CardCollection>::receive` from `src/game_state.rs`. -/
def receive (cards : List Card) (v : List Card) : Except Unit Unit × List Card :=
  match cards with
  | [c] => (.ok (), c :: v)
  | _ => (.error (), v)

/-- Rust `<Vec<Card> as CardCollection>::peek` from `src/game_state.rs`. -/
def peek (v : List Card) : Option Card :=
  List.head? v

/-- Rust `<Vec<Card> as CardCollection>::peek_n` from `src/game_state.rs`. -/
def peek_n (count : Nat) (v : List Card) : Option (List Card) :=
  if count ≤ List.length v then some ((List.take count v).reverse) else none

end CardVec

namespace Selection

/-- Dispatch of `Selection::selected_collection(...).peek()` from
`src/tui.rs` / `src/game_state.rs`; `none` models the `.expect` panic on an
out-of-range index. -/
def sel_peek (sel : Selection) (gs : GameState) : Option (Option Card) :=
  match sel with
  | .deck => some (CardVec.peek gs.deck_drawn)
  | .column i _ => (gs.columns[i]?).map CardColumn.peek
  | .pile i => (gs.card_piles[i]?).map CardPile.peek

/-- Dispatch of `Selection::selected_collection(...).peek_n(count)`;
`none` models the `.expect` panic on an out-of-range index. -/
def sel_peek_n (sel : Selection) (count : Nat) (gs : GameState) :
    Option (Option (List Card)) :=
  match sel with
  | .deck => some (CardVec.peek_n count gs.deck_drawn)
  | .column i _ => (gs.columns[i]?).map (CardColumn.peek_n count)
  | .pile i => (gs.card_piles[i]?).map (CardPile.peek_n count)

/-- Dispatch of `Selection::selected_collection(...).take(count)`;
`none` models the `.expect` panic on an out-of-range index.  The returned
state carries the mutation of the selected collection (also on `Err`). -/
def sel_take (sel : Selection) (count : Nat) (gs : GameState) :
    Option (Except Unit (List Card) × GameState) :=
  match sel with
  | .deck =>
    let (r, v) := CardVec.take count gs.deck_drawn
    some (r, { gs with deck_drawn := v })
  | .column i _ =>
    (gs.columns[i]?).map fun col =>
      let (r, col') := CardColumn.take count col
      (r, { gs with columns := gs.columns.set i col' })
  | .pile i =>
    (gs.card_piles[i]?).map fun pile =>
      let (r, pile') := CardPile.take count pile
      (r, { gs with card_piles := gs.card_piles.set i pile' })

/-- Dispatch of `Selection::selected_collection(...).receive(cards)`;
`none` models the `.expect` panic on an out-of-range index. -/
def sel_receive (sel : Selection) (cards : List Card) (gs : GameState) :
    Option (Except Unit Unit × GameState) :=
  match sel with
  | .deck =>
    let (r, v) := CardVec.receive cards gs.deck_drawn
    some (r, { gs with deck_drawn := v })
  | .column i _ =>
    (gs.columns[i]?).map fun col =>
      let (r, col') := CardColumn.receive cards col
      (r, { gs with columns := gs.columns.set i col' })
  | .pile i =>
    (gs.card_piles[i]?).map fun pile =>
      let (r, pile') := CardPile.receive cards pile
      (r, { gs with card_piles := gs.card_piles.set i pile' })

end Selection

namespace game_logic

/-- Rust `game_logic::victory` from `src/game_logic.rs`: every foundation
pile's top card exists and is a King. -/
def victory (gs : GameState) : Bool :=
  gs.card_piles.all fun pile =>
    match List.head? pile with
    | some c => c.rank = Rank.king
    | none => false

/-- Rust `game_logic::valid_move_deck_to_pile` from `src/game_logic.rs`,
in state-passing style (the source takes `&mut GameState` but only peeks). -/
def valid_move_deck_to_pile (pile_index : Nat) (gs : GameState) :
    Option (Except Unit Unit × GameState) :=
  match Selection.sel_peek .deck gs with
  | none => none
  | some none => some (.error (), gs)
  | some (some deck_card) =>
    match Selection.sel_peek (.pile pile_index) gs with
    | none => none
    | some pile_card =>
      if deck_card.suit.toNat ≠ pile_index then some (.error (), gs)
      else
        match pile_card with
        | some pc =>
          if deck_card.rank.toNat = pc.rank.toNat + 1 then some (.ok (), gs)
          else some (.error (), gs)
        | none =>
          if deck_card.rank = Rank.ace then some (.ok (), gs)
          else some (.error (), gs)

/-- Rust `game_logic::valid_move_card_to_column` from `src/game_logic.rs`:
the shared "card onto column" rule. -/
def valid_move_card_to_column (card : Card) (column_index : Nat)
    (gs : GameState) : Option (Except Unit Unit × GameState) :=
  match Selection.sel_peek (.column column_index 0) gs with
  | none => none
  | some (some column_card) =>
    if card.rank.toNat + 1 = column_card.rank.toNat ∧
        card.suit.is_red ≠ column_card.suit.is_red then
      some (.ok (), gs)
    else some (.error (), gs)
  | some none =>
    if card.rank = Rank.king then some (.ok (), gs) else some (.error (), gs)

/-- Rust `game_logic::valid_move_deck_to_column` from `src/game_logic.rs`. -/
def valid_move_deck_to_column (column_index : Nat) (gs : GameState) :
    Option (Except Unit Unit × GameState) :=
  match Selection.sel_peek .deck gs with
  | none => none
  | some none => some (.error (), gs)
  | some (some deck_card) => valid_move_card_to_column deck_card column_index gs

/-- Rust `game_logic::valid_move_column_to_column` from `src/game_logic.rs`:
peeks the selected run and applies the "card onto column" rule to its
bottom (first) card. -/
def valid_move_column_to_column (from_index card_count to_index : Nat)
    (gs : GameState) : Option (Except Unit Unit × GameState) :=
  match Selection.sel_peek_n (.column from_index card_count) card_count gs with
  | none => none
  | some none => some (.error (), gs)
  | some (some cards) =>
    match List.head? cards with
    | none => some (.error (), gs)
    | some first_card => valid_move_card_to_column first_card to_index gs

/-- Rust `game_logic::valid_move_column_to_pile` from `src/game_logic.rs`:
requires exactly one selected card, matching suit, and the Ace/adjacent-rank
rule. -/
def valid_move_column_to_pile (column_index card_count pile_index : Nat)
    (gs : GameState) : Option (Except Unit Unit × GameState) :=
  if card_count ≠ 1 then some (.error (), gs)
  else
    match Selection.sel_peek (.column column_index card_count) gs with
    | none => none
    | some none => some (.error (), gs)
    | some (some column_card) =>
      if column_card.suit.toNat ≠ pile_index then some (.error (), gs)
      else
        match Selection.sel_peek (.pile pile_index) gs with
        | none => none
        | some (some pile_card) =>
          if column_card.rank.toNat = pile_card.rank.toNat + 1 then
            some (.ok (), gs)
          else some (.error (), gs)
        | some none =>
          if column_card.rank = Rank.ace then some (.ok (), gs)
          else some (.error (), gs)

/-- Rust `game_logic::valid_move_pile_to_column` from `src/game_logic.rs`. -/
def valid_move_pile_to_column (pile_index column_index : Nat)
    (gs : GameState) : Option (Except Unit Unit × GameState) :=
  match Selection.sel_peek (.pile pile_index) gs with
  | none => none
  | some none => some (.error (), gs)
  | some (some card) => valid_move_card_to_column card column_index gs

/-- Rust `game_logic::valid_move` from `src/game_logic.rs`: dispatch over
the (from, to) selection pair. -/
def valid_move (fromSel toSel : Selection) (gs : GameState) :
    Option (Except Unit Unit × GameState) :=
  match fromSel with
  | .deck =>
    match toSel with
    | .deck => some (.error (), gs)
    | .pile index => valid_move_deck_to_pile index gs
    | .column index _ => valid_move_deck_to_column index gs
  | .pile index =>
    match toSel with
    | .deck => some (.error (), gs)
    | .pile _ => some (.error (), gs)
    | .column column_index _ => valid_move_pile_to_column index column_index gs
  | .column index card_count =>
    match toSel with
    | .deck => some (.error (), gs)
    | .pile pile_index => valid_move_column_to_pile index card_count pile_index gs
    | .column to_index _ => valid_move_column_to_column index card_count to_index gs

/-- Rust `game_logic::face_up_on_columns` from `src/game_logic.rs`: force
the top card of every non-empty column to `FaceUp`. -/
def face_up_on_columns (gs : GameState) : GameState :=
  { gs with
    columns := gs.columns.map fun col =>
      match col with
      | [] => []
      | (c, _) :: rest => (c, CardState.faceUp) :: rest }

end game_logic

namespace GameState

/-- The draw loop inside `GameState::deck_hit` (`src/game_state.rs`):
`count` iterations, each popping the deck's top card (if any) onto the
drawn pile. -/
def deck_hit_draw : Nat → List Card × List Card → List Card × List Card
  | 0, p => p
  | n + 1, (deck, drawn) =>
    match deck with
    | [] => deck_hit_draw n ([], drawn)
    | c :: rest => deck_hit_draw n (rest, c :: drawn)

/-- Rust `GameState::deck_hit` from `src/game_state.rs`: if the deck is
empty and the drawn pile is not, recycle the drawn pile into the deck
(reversed) and clear it; then draw 1 (`DrawOne`) or 3 (`DrawThree`) cards. -/
def deck_hit (gs : GameState) : GameState :=
  let gs :=
    if gs.deck = [] ∧ gs.deck_drawn ≠ [] then
      { gs with deck := gs.deck_drawn.reverse, deck_drawn := [] }
    else gs
  let count : Nat :=
    match gs.game_mode with
    | .drawOne => 1
    | .drawThree => 3
  let p := deck_hit_draw count (gs.deck, gs.deck_drawn)
  { gs with deck := p.1, deck_drawn := p.2 }

/-- Rust `GameState::auto_hit` from `src/game_state.rs`. -/
def auto_hit (gs : GameState) : GameState :=
  if gs.deck ≠ [] ∧ gs.deck_drawn = [] then gs.deck_hit else gs

/-- One iteration of the dealing loop in `GameState::init`: pop `k` cards
off the deck into a fresh column, all `FaceDown`; `none` models the
`.expect` panic when the deck runs out. -/
def deal_column (k : Nat) (deck : List Card) : Option (CardColumn × List Card) :=
  if k ≤ deck.length then
    some ((List.map (fun c => (c, CardState.faceDown)) (deck.take k)).reverse,
      deck.drop k)
  else none

/-- The dealing loop of `GameState::init`: deal the given run lengths to
successive columns. -/
def init_deal : List Nat → List Card → Option (List CardColumn × List Card)
  | [], deck => some ([], deck)
  | k :: ks, deck =>
    match deal_column k deck with
    | none => none
    | some (col, deck') =>
      match init_deal ks deck' with
      | none => none
      | some (cols, deck'') => some (col :: cols, deck'')

/-- Rust `GameState::init` from `src/game_state.rs`: deal column `i` exactly
`i + 1` cards popped off the given deck, all `FaceDown`; the remaining deck,
an empty drawn pile and four empty foundation piles form the state
(`game_mode` defaults to `DrawOne`).  `none` models the dealing panic. -/
def init (deck : List Card) : Option GameState :=
  match init_deal [1, 2, 3, 4, 5, 6, 7] deck with
  | none => none
  | some (cols, deck') =>
    some
      { game_mode := .drawOne
        deck := deck'
        deck_drawn := []
        columns := cols
        card_piles := [[], [], [], []] }

end GameState

/-- Rust `Selection::apply_column_selection_rules` from `src/tui.rs`
(duplicated in `src/selection.rs`): a non-empty column's zero selection is
forced to 1; otherwise the selection count is clamped to the column length
(debug mode) or the face-up run length; `max_count as u8` truncates mod 256.
`none` models the `columns[index as usize]` panic on an out-of-range index. -/
def Selection.apply_column_selection_rules (sel : Selection) (gs : GameState)
    (debug_mode : Bool) : Option Selection :=
  match sel with
  | .column index card_count =>
    match gs.columns[index]? with
    | none => none
    | some col =>
      if col ≠ [] ∧ card_count = 0 then some (.column index 1)
      else
        let max_count := if debug_mode then col.length else col.face_up_cards
        some (.column index (min card_count (max_count % 256)))
  | s => some s

namespace Ui

/-- Rust `Ui::move_cards` from `src/tui.rs`: reject same-collection pairs,
then `take` from the source and `receive` at the destination.  A failing
`take` or `receive` propagates `Err`, keeping whatever mutation the failing
step already made (a partially popped source loses the popped cards). -/
def move_cards (fromSel toSel : Selection) (gs : GameState) :
    Option (Except Unit Unit × GameState) :=
  if fromSel.same_collection toSel then some (.error (), gs)
  else
    match Selection.sel_take fromSel fromSel.card_count gs with
    | none => none
    | some (.error _, gs1) => some (.error (), gs1)
    | some (.ok cards, gs1) =>
      match Selection.sel_receive toSel cards gs1 with
      | none => none
      | some (r, gs2) => some (r, gs2)

/-- The `GameState` effect of the move branch of `Ui::cards_action` from
`src/tui.rs`: `valid_move` is queried first and `move_cards` runs only when
it accepts (the `selected`/`debug_message` fields of `Ui` are UI-only and
not modelled). -/
def cards_action_move (fromSel toSel : Selection) (gs : GameState) :
    Option (Except Unit Unit × GameState) :=
  match game_logic.valid_move fromSel toSel gs with
  | none => none
  | some (.ok _, gs1) => move_cards fromSel toSel gs1
  | some (.error _, gs1) => some (.error (), gs1)

/-- One iteration of the foundation loop in `Ui::enter_key_action`: check
`valid_move` from the column (one card) to pile `i` and, if it accepts,
perform `move_cards`, discarding its verdict (`let _ = ...`). -/
def enter_key_try_pile (index i : Nat) (gs : GameState) : Option GameState :=
  match game_logic.valid_move (.column index 1) (.pile i) gs with
  | none => none
  | some (.ok _, gs1) =>
    match move_cards (.column index 1) (.pile i) gs1 with
    | none => none
    | some (_, gs2) => some gs2
  | some (.error _, gs1) => some gs1

/-- The `GameState` effect of `Ui::enter_key_action` from `src/tui.rs`:
on the deck, hit the deck; on a column, try each of the four foundation
piles in index order (`for i in 0..4`, with no break after a success). -/
def enter_key_action (cursor : Selection) (gs : GameState) : Option GameState :=
  match cursor with
  | .deck => some gs.deck_hit
  | .column index _ =>
    List.foldlM (fun g i => enter_key_try_pile index i g) gs [0, 1, 2, 3]
  | .pile _ => some gs

end Ui

/-! ## Spec-side predicates and the ownership invariant -/

/-- All cards owned by a `GameState`'s 12 collections (deck, waste, 7
columns, 4 foundation piles), with multiplicity. -/
def GameState.cardList (gs : GameState) : List Card :=
  gs.deck ++ gs.deck_drawn ++ gs.columns.flatMap (fun col => col.map Prod.fst)
    ++ gs.card_piles.flatMap id

/-- The multiset of all cards a `GameState` owns. -/
def GameState.cardBag (gs : GameState) : Multiset Card :=
  (gs.cardList : Multiset Card)

/-- The ownership invariant of the spec: the union of all 12 collections'
cards, counted with multiplicity, equals the standard 52-card deck. -/
def GameState.Invariant (gs : GameState) : Prop :=
  gs.cardBag = (Card.ordered_deck : Multiset Card)

instance : DecidablePred GameState.Invariant := fun _ =>
  inferInstanceAs (Decidable (_ = _))

/-- The spec's "card onto column" rule, stated from its words: legal iff the
destination column is empty and the card is a King, or the column's top card
exists, is of opposite color, and has rank one above the candidate's. -/
def CardToColumnOk (c : Card) (col : CardColumn) : Prop :=
  (col = [] ∧ c.rank = Rank.king) ∨
    ∃ top, CardColumn.peek col = some top ∧
      top.suit.is_red ≠ c.suit.is_red ∧ top.rank.toNat = c.rank.toNat + 1

/-- The spec's foundation acceptance rule, stated from its words: the card's
suit matches the pile's suit index, and either the pile is empty and the
card is an Ace, or the card's rank is one above the pile's top rank. -/
def CardToPileOk (c : Card) (pile_index : Nat) (pile : CardPile) : Prop :=
  c.suit.toNat = pile_index ∧
    ((pile = [] ∧ c.rank = Rank.ace) ∨
      ∃ top, CardPile.peek pile = some top ∧ c.rank.toNat = top.rank.toNat + 1)

/-! ## Shared lemmas -/

theorem CardColumn.col_peek_eq_none_iff (col : CardColumn) :
    CardColumn.peek col = none ↔ col = [] := by
  cases col <;> simp [CardColumn.peek]

theorem CardPile.pile_peek_eq_none_iff (pile : CardPile) :
    CardPile.peek pile = none ↔ pile = [] := by
  cases pile <;> simp [CardPile.peek]

/-- Rust `valid_move_card_to_column` never changes the state. -/
theorem game_logic.valid_move_card_to_column_state (c : Card) (i : Nat)
    (gs : GameState) :
    ∀ out, game_logic.valid_move_card_to_column c i gs = some out →
      out.2 = gs := by
  intro out h
  unfold game_logic.valid_move_card_to_column at h
  repeat' split at h
  all_goals first
    | (injection h with h; cases h; rfl)
    | injection h

/-- Rust `valid_move_deck_to_pile` never changes the state. -/
theorem game_logic.valid_move_deck_to_pile_state (p : Nat) (gs : GameState) :
    ∀ out, game_logic.valid_move_deck_to_pile p gs = some out → out.2 = gs := by
  intro out h
  unfold game_logic.valid_move_deck_to_pile at h
  repeat' split at h
  all_goals first
    | (injection h with h; cases h; rfl)
    | injection h

/-- Rust `valid_move_deck_to_column` never changes the state. -/
theorem game_logic.valid_move_deck_to_column_state (i : Nat) (gs : GameState) :
    ∀ out, game_logic.valid_move_deck_to_column i gs = some out → out.2 = gs := by
  intro out h
  unfold game_logic.valid_move_deck_to_column at h
  repeat' split at h
  all_goals first
    | (injection h with h; cases h; rfl)
    | injection h
    | exact game_logic.valid_move_card_to_column_state _ _ _ _ h

/-- Rust `valid_move_column_to_column` never changes the state. -/
theorem game_logic.valid_move_column_to_column_state (i cc j : Nat)
    (gs : GameState) :
    ∀ out, game_logic.valid_move_column_to_column i cc j gs = some out →
      out.2 = gs := by
  intro out h
  unfold game_logic.valid_move_column_to_column at h
  repeat' split at h
  all_goals first
    | (injection h with h; cases h; rfl)
    | injection h
    | exact game_logic.valid_move_card_to_column_state _ _ _ _ h

/-- Rust `valid_move_column_to_pile` never changes the state. -/
theorem game_logic.valid_move_column_to_pile_state (i cc p : Nat)
    (gs : GameState) :
    ∀ out, game_logic.valid_move_column_to_pile i cc p gs = some out →
      out.2 = gs := by
  intro out h
  unfold game_logic.valid_move_column_to_pile at h
  repeat' split at h
  all_goals first
    | (injection h with h; cases h; rfl)
    | injection h

/-- Rust `valid_move_pile_to_column` never changes the state. -/
theorem game_logic.valid_move_pile_to_column_state (p i : Nat)
    (gs : GameState) :
    ∀ out, game_logic.valid_move_pile_to_column p i gs = some out →
      out.2 = gs := by
  intro out h
  unfold game_logic.valid_move_pile_to_column at h
  repeat' split at h
  all_goals first
    | (injection h with h; cases h; rfl)
    | injection h
    | exact game_logic.valid_move_card_to_column_state _ _ _ _ h

/-- Rust `valid_move` never changes the state, whichever verdict it
returns. -/
theorem game_logic.valid_move_state (fromSel toSel : Selection)
    (gs : GameState) :
    ∀ out, game_logic.valid_move fromSel toSel gs = some out → out.2 = gs := by
  intro out h
  unfold game_logic.valid_move at h
  cases fromSel <;> cases toSel <;>
    first
      | (injection h with h; cases h; rfl)
      | exact game_logic.valid_move_deck_to_pile_state _ _ _ h
      | exact game_logic.valid_move_deck_to_column_state _ _ _ h
      | exact game_logic.valid_move_pile_to_column_state _ _ _ _ h
      | exact game_logic.valid_move_column_to_pile_state _ _ _ _ _ h
      | exact game_logic.valid_move_column_to_column_state _ _ _ _ _ h

/-- A small well-formed demonstration state used by witnesses: one drawn
card (an Ace of Hearts), a King and a two-card run on the first two columns,
everything else empty. -/
def gsDemo : GameState :=
  { game_mode := .drawOne
    deck := [⟨.hearts, .r2⟩]
    deck_drawn := [⟨.hearts, .ace⟩]
    columns := [[(⟨.spades, .king⟩, .faceUp)],
      [(⟨.clubs, .ace⟩, .faceUp), (⟨.diamonds, .r2⟩, .faceUp)],
      [(⟨.diamonds, .r7⟩, .faceUp), (⟨.clubs, .r6⟩, .faceUp)],
      [], [], [], []]
    card_piles := [[], [], [], []] }

theorem Selection.sel_peek_deck (gs : GameState) :
    Selection.sel_peek .deck gs = some (CardVec.peek gs.deck_drawn) := rfl

theorem Selection.sel_peek_column (i k : Nat) (gs : GameState) :
    Selection.sel_peek (.column i k) gs = (gs.columns[i]?).map CardColumn.peek := rfl

theorem Selection.sel_peek_pile (i : Nat) (gs : GameState) :
    Selection.sel_peek (.pile i) gs = (gs.card_piles[i]?).map CardPile.peek := rfl

theorem Selection.sel_peek_n_column (i k n : Nat) (gs : GameState) :
    Selection.sel_peek_n (.column i k) n gs =
      (gs.columns[i]?).map (CardColumn.peek_n n) := rfl

/-- The shared "card onto column" helper decides exactly the spec's rule. -/
theorem game_logic.card_to_column_iff (c : Card) (i : Nat) (gs : GameState)
    (col : CardColumn) (hcol : gs.columns[i]? = some col) :
    game_logic.valid_move_card_to_column c i gs = some (.ok (), gs) ↔
      CardToColumnOk c col := by
  unfold game_logic.valid_move_card_to_column CardToColumnOk
  rw [Selection.sel_peek_column, hcol, Option.map_some']
  cases hpk : CardColumn.peek col with
  | none =>
    have hc : col = [] := (CardColumn.col_peek_eq_none_iff col).mp hpk
    subst hc
    simp only [hpk]
    split <;> simp_all
  | some top =>
    have hc : col ≠ [] := by
      intro h
      rw [h] at hpk
      simp [CardColumn.peek] at hpk
    simp only [hpk]
    by_cases hcond : c.rank.toNat + 1 = top.rank.toNat ∧
        c.suit.is_red ≠ top.suit.is_red
    · rw [if_pos hcond]
      constructor
      · intro _
        exact Or.inr ⟨top, rfl, Ne.symm hcond.2, hcond.1.symm⟩
      · intro _
        rfl
    · rw [if_neg hcond]
      constructor
      · intro h
        exact absurd h (by simp)
      · rintro (⟨hnil, _⟩ | ⟨top', htop', hsuit, hrank⟩)
        · exact absurd hnil hc
        · injection htop' with htop'
          subst htop'
          exact absurd ⟨hrank.symm, Ne.symm hsuit⟩ hcond

/-- C2: the shared helper `valid_move_card_to_column` accepts a card onto a
column iff the column is empty and the card is a King, or the column's top
card exists, has the opposite color, and ranks one above the card; and this
same rule (through the helper) decides Deck/Waste→Column, Foundation→Column,
and — applied to the selected run's bottom card — Column→Column moves. -/
theorem claim_C2_card_onto_column (c : Card) (i k j cc p : Nat)
    (gs : GameState) (col col' : CardColumn) (pl : CardPile)
    (hcol : gs.columns[i]? = some col)
    (hcol' : gs.columns[j]? = some col')
    (hpl : gs.card_piles[p]? = some pl) :
    (game_logic.valid_move_card_to_column c i gs = some (.ok (), gs) ↔
      CardToColumnOk c col) ∧
    (game_logic.valid_move .deck (.column i k) gs = some (.ok (), gs) ↔
      ∃ w, CardVec.peek gs.deck_drawn = some w ∧ CardToColumnOk w col) ∧
    (game_logic.valid_move (.pile p) (.column i k) gs = some (.ok (), gs) ↔
      ∃ w, CardPile.peek pl = some w ∧ CardToColumnOk w col) ∧
    (game_logic.valid_move (.column j cc) (.column i k) gs =
        some (.ok (), gs) ↔
      ∃ cards w, CardColumn.peek_n cc col' = some cards ∧
        List.head? cards = some w ∧ CardToColumnOk w col) := by
  refine ⟨game_logic.card_to_column_iff c i gs col hcol, ?_, ?_, ?_⟩
  · show game_logic.valid_move_deck_to_column i gs = _ ↔ _
    unfold game_logic.valid_move_deck_to_column
    rw [Selection.sel_peek_deck]
    cases hw : CardVec.peek gs.deck_drawn with
    | none => simp
    | some w =>
      simp only [Option.some.injEq]
      rw [game_logic.card_to_column_iff w i gs col hcol]
      constructor
      · intro h
        exact ⟨w, rfl, h⟩
      · rintro ⟨w', hw', h⟩
        cases hw'
        exact h
  · show game_logic.valid_move_pile_to_column p i gs = _ ↔ _
    unfold game_logic.valid_move_pile_to_column
    rw [Selection.sel_peek_pile, hpl, Option.map_some']
    cases hw : CardPile.peek pl with
    | none => simp
    | some w =>
      simp only [Option.some.injEq]
      rw [game_logic.card_to_column_iff w i gs col hcol]
      constructor
      · intro h
        exact ⟨w, rfl, h⟩
      · rintro ⟨w', hw', h⟩
        cases hw'
        exact h
  · show game_logic.valid_move_column_to_column j cc i gs = _ ↔ _
    unfold game_logic.valid_move_column_to_column
    rw [Selection.sel_peek_n_column, hcol', Option.map_some']
    cases hcards : CardColumn.peek_n cc col' with
    | none => simp
    | some cards =>
      simp only [Option.some.injEq]
      cases hhd : List.head? cards with
      | none => simp_all
      | some w =>
        rw [game_logic.card_to_column_iff w i gs col hcol]
        constructor
        · intro h
          exact ⟨cards, w, rfl, hhd, h⟩
        · rintro ⟨cards', w', hcards', hhd', h⟩
          cases hcards'
          rw [hhd] at hhd'
          cases hhd'
          exact h

/-- First column of `gsDemo`: a face-up King of Spades. -/
def colDemo0 : CardColumn := [(⟨.spades, .king⟩, .faceUp)]

/-- Second column of `gsDemo`: a face-up Ace of Clubs on a two of
Diamonds. -/
def colDemo1 : CardColumn := [(⟨.clubs, .ace⟩, .faceUp), (⟨.diamonds, .r2⟩, .faceUp)]

/-- Concrete instantiation of `claim_C2_card_onto_column` at `gsDemo` with a
Queen of Diamonds onto the King-of-Spades column. -/
theorem claim_C2_card_onto_column_witness :
    gsDemo.columns[0]? = some colDemo0 ∧
    gsDemo.columns[1]? = some colDemo1 ∧
    gsDemo.card_piles[0]? = some [] ∧
    ((game_logic.valid_move_card_to_column ⟨.diamonds, .queen⟩ 0 gsDemo =
        some (.ok (), gsDemo) ↔
      CardToColumnOk ⟨.diamonds, .queen⟩ colDemo0) ∧
    (game_logic.valid_move .deck (.column 0 0) gsDemo = some (.ok (), gsDemo) ↔
      ∃ w, CardVec.peek gsDemo.deck_drawn = some w ∧ CardToColumnOk w colDemo0) ∧
    (game_logic.valid_move (.pile 0) (.column 0 0) gsDemo =
        some (.ok (), gsDemo) ↔
      ∃ w, CardPile.peek [] = some w ∧ CardToColumnOk w colDemo0) ∧
    (game_logic.valid_move (.column 1 2) (.column 0 0) gsDemo =
        some (.ok (), gsDemo) ↔
      ∃ cards w, CardColumn.peek_n 2 colDemo1 = some cards ∧
        List.head? cards = some w ∧ CardToColumnOk w colDemo0)) :=
  ⟨rfl, rfl, rfl,
    claim_C2_card_onto_column ⟨.diamonds, .queen⟩ 0 0 1 2 0 gsDemo
      colDemo0 colDemo1 [] rfl rfl rfl⟩

/-- C8: `valid_move` is side-effect free: whenever it returns (with either
verdict), the state it hands back is exactly the state it was given. -/
theorem claim_C8_valid_move_pure (fromSel toSel : Selection) (gs : GameState)
    (out : Except Unit Unit × GameState)
    (h : game_logic.valid_move fromSel toSel gs = some out) : out.2 = gs :=
  game_logic.valid_move_state fromSel toSel gs out h

/-- Concrete instantiation of `claim_C8_valid_move_pure`: a checked
Deck→Foundation query on `gsDemo` returns `gsDemo` itself unchanged. -/
theorem claim_C8_valid_move_pure_witness :
    game_logic.valid_move .deck (.pile 0) gsDemo =
      some (Except.ok (), gsDemo) ∧
    ((Except.ok (), gsDemo) : Except Unit Unit × GameState).2 = gsDemo :=
  ⟨rfl, claim_C8_valid_move_pure .deck (.pile 0) gsDemo
    (Except.ok (), gsDemo) rfl⟩

/-- Rust `valid_move_deck_to_pile` decides exactly the spec's foundation
acceptance rule applied to the top card of the waste. -/
theorem game_logic.deck_to_pile_iff (p : Nat) (gs : GameState) (pl : CardPile)
    (hpl : gs.card_piles[p]? = some pl) :
    game_logic.valid_move_deck_to_pile p gs = some (.ok (), gs) ↔
      ∃ w, CardVec.peek gs.deck_drawn = some w ∧ CardToPileOk w p pl := by
  unfold game_logic.valid_move_deck_to_pile
  rw [Selection.sel_peek_deck]
  cases hw : CardVec.peek gs.deck_drawn with
  | none => simp
  | some w =>
    rw [Selection.sel_peek_pile, hpl, Option.map_some']
    simp only [Option.some.injEq]
    by_cases hsuit : w.suit.toNat = p
    · rw [if_neg (fun h => h hsuit)]
      cases hpk : CardPile.peek pl with
      | none =>
        have hnil : pl = [] := (CardPile.pile_peek_eq_none_iff pl).mp hpk
        show (if w.rank = Rank.ace then some (Except.ok (), gs)
          else some (Except.error (), gs)) = _ ↔ _
        by_cases hace : w.rank = Rank.ace
        · rw [if_pos hace]
          simp only [true_iff]
          exact ⟨w, rfl, hsuit, Or.inl ⟨hnil, hace⟩⟩
        · rw [if_neg hace]
          constructor
          · intro h
            exact absurd h (by simp)
          · rintro ⟨w', hw', _, (⟨_, hr⟩ | ⟨top, htop, _⟩)⟩
            · cases hw'
              exact absurd hr hace
            · rw [hpk] at htop
              cases htop
      | some top =>
        have hne : pl ≠ [] := by
          intro h
          rw [h] at hpk
          simp [CardPile.peek] at hpk
        show (if w.rank.toNat = top.rank.toNat + 1 then some (Except.ok (), gs)
          else some (Except.error (), gs)) = _ ↔ _
        by_cases hrk : w.rank.toNat = top.rank.toNat + 1
        · rw [if_pos hrk]
          simp only [true_iff]
          exact ⟨w, rfl, hsuit, Or.inr ⟨top, hpk, hrk⟩⟩
        · rw [if_neg hrk]
          constructor
          · intro h
            exact absurd h (by simp)
          · rintro ⟨w', hw', _, (⟨hnil, _⟩ | ⟨top', htop', hr⟩)⟩
            · exact absurd hnil hne
            · cases hw'
              rw [hpk] at htop'
              cases htop'
              exact absurd hr hrk
    · rw [if_pos hsuit]
      constructor
      · intro h
        exact absurd h (by simp)
      · rintro ⟨w', hw', hs, _⟩
        cases hw'
        exact absurd hs hsuit

/-- Rust `valid_move_column_to_pile` with a selection count other than one
is always rejected, before anything else is examined. -/
theorem game_logic.column_to_pile_cc_ne (i cc p : Nat) (gs : GameState)
    (h : cc ≠ 1) :
    game_logic.valid_move_column_to_pile i cc p gs =
      some (.error (), gs) := by
  unfold game_logic.valid_move_column_to_pile
  rw [if_pos h]

/-- Rust `valid_move_column_to_pile` decides exactly the spec's foundation
acceptance rule: exactly one selected card whose suit matches the pile and
which continues the pile (Ace on empty, rank + 1 otherwise). -/
theorem game_logic.column_to_pile_iff (i cc p : Nat) (gs : GameState)
    (col : CardColumn) (pl : CardPile)
    (hcol : gs.columns[i]? = some col)
    (hpl : gs.card_piles[p]? = some pl) :
    game_logic.valid_move_column_to_pile i cc p gs = some (.ok (), gs) ↔
      cc = 1 ∧ ∃ w, CardColumn.peek col = some w ∧ CardToPileOk w p pl := by
  by_cases hcc : cc = 1
  · subst hcc
    unfold game_logic.valid_move_column_to_pile
    rw [if_neg (by simp)]
    rw [Selection.sel_peek_column, hcol, Option.map_some']
    cases hw : CardColumn.peek col with
    | none => simp
    | some w =>
      simp only [Option.some.injEq, true_and]
      by_cases hsuit : w.suit.toNat = p
      · rw [if_neg (fun h => h hsuit)]
        rw [Selection.sel_peek_pile, hpl, Option.map_some']
        cases hpk : CardPile.peek pl with
        | none =>
          have hnil : pl = [] := (CardPile.pile_peek_eq_none_iff pl).mp hpk
          show (if w.rank = Rank.ace then some (Except.ok (), gs)
            else some (Except.error (), gs)) = _ ↔ _
          by_cases hace : w.rank = Rank.ace
          · rw [if_pos hace]
            simp only [true_iff]
            exact ⟨w, rfl, hsuit, Or.inl ⟨hnil, hace⟩⟩
          · rw [if_neg hace]
            constructor
            · intro h
              exact absurd h (by simp)
            · rintro ⟨w', hw', _, (⟨_, hr⟩ | ⟨top, htop, _⟩)⟩
              · cases hw'
                exact absurd hr hace
              · rw [hpk] at htop
                cases htop
        | some top =>
          have hne : pl ≠ [] := by
            intro h
            rw [h] at hpk
            simp [CardPile.peek] at hpk
          show (if w.rank.toNat = top.rank.toNat + 1 then some (Except.ok (), gs)
            else some (Except.error (), gs)) = _ ↔ _
          by_cases hrk : w.rank.toNat = top.rank.toNat + 1
          · rw [if_pos hrk]
            simp only [true_iff]
            exact ⟨w, rfl, hsuit, Or.inr ⟨top, hpk, hrk⟩⟩
          · rw [if_neg hrk]
            constructor
            · intro h
              exact absurd h (by simp)
            · rintro ⟨w', hw', _, (⟨hnil, _⟩ | ⟨top', htop', hr⟩)⟩
              · exact absurd hnil hne
              · cases hw'
                rw [hpk] at htop'
                cases htop'
                exact absurd hr hrk
      · rw [if_pos hsuit]
        constructor
        · intro h
          exact absurd h (by simp)
        · rintro ⟨w', hw', hs, _⟩
          cases hw'
          exact absurd hs hsuit
  · rw [game_logic.column_to_pile_cc_ne i cc p gs hcc]
    constructor
    · intro h
      exact absurd h (by simp)
    · rintro ⟨h1, _⟩
      exact absurd h1 hcc

/-- C3: a Deck/Waste→Foundation or Column→Foundation move is accepted iff
the moved card's suit equals the pile's suit index and the card is an Ace on
an empty pile or ranks one above the pile's top card; a Column→Foundation
attempt additionally requires exactly one selected card, and is rejected
outright whenever `card_count ≠ 1`. -/
theorem claim_C3_foundation_accept (p i cc : Nat) (gs : GameState)
    (pl : CardPile) (col : CardColumn)
    (hpl : gs.card_piles[p]? = some pl)
    (hcol : gs.columns[i]? = some col) :
    (game_logic.valid_move .deck (.pile p) gs = some (.ok (), gs) ↔
      ∃ w, CardVec.peek gs.deck_drawn = some w ∧ CardToPileOk w p pl) ∧
    (game_logic.valid_move (.column i cc) (.pile p) gs = some (.ok (), gs) ↔
      cc = 1 ∧ ∃ w, CardColumn.peek col = some w ∧ CardToPileOk w p pl) ∧
    (cc ≠ 1 → game_logic.valid_move (.column i cc) (.pile p) gs =
      some (.error (), gs)) :=
  ⟨game_logic.deck_to_pile_iff p gs pl hpl,
    game_logic.column_to_pile_iff i cc p gs col pl hcol hpl,
    fun h => game_logic.column_to_pile_cc_ne i cc p gs h⟩

/-- Concrete instantiation of `claim_C3_foundation_accept` at `gsDemo`:
foundation 0 (Hearts) with the Ace of Hearts on the waste and a two-card
column selection. -/
theorem claim_C3_foundation_accept_witness :
    gsDemo.card_piles[0]? = some [] ∧
    gsDemo.columns[1]? = some colDemo1 ∧
    ((game_logic.valid_move .deck (.pile 0) gsDemo = some (.ok (), gsDemo) ↔
      ∃ w, CardVec.peek gsDemo.deck_drawn = some w ∧ CardToPileOk w 0 []) ∧
    (game_logic.valid_move (.column 1 2) (.pile 0) gsDemo =
        some (.ok (), gsDemo) ↔
      2 = 1 ∧ ∃ w, CardColumn.peek colDemo1 = some w ∧ CardToPileOk w 0 []) ∧
    (2 ≠ 1 → game_logic.valid_move (.column 1 2) (.pile 0) gsDemo =
      some (.error (), gsDemo))) :=
  ⟨rfl, rfl, claim_C3_foundation_accept 0 1 2 gsDemo [] colDemo1 rfl rfl⟩

theorem CardVec.vec_peek_cons (v : List Card) (w : Card)
    (h : CardVec.peek v = some w) : ∃ rest, v = w :: rest := by
  cases v with
  | nil => cases h
  | cons x t =>
    injection h with h
    exact ⟨t, by rw [h]⟩

theorem CardColumn.col_peek_cons (col : CardColumn) (w : Card)
    (h : CardColumn.peek col = some w) :
    ∃ s rest, col = (w, s) :: rest := by
  cases col with
  | nil => cases h
  | cons x t =>
    obtain ⟨c, s⟩ := x
    injection h with h
    exact ⟨s, t, by simp [CardColumn.peek] at h; rw [h]⟩

/-- When `valid_move` accepts a Deck→Pile pair, the subsequent transfer's
`take` and `receive` both succeed. -/
theorem Ui.move_ok_deck_pile (p : Nat) (gs : GameState)
    (h : game_logic.valid_move_deck_to_pile p gs = some (.ok (), gs)) :
    ∃ gs2, Ui.move_cards .deck (.pile p) gs = some (.ok (), gs2) := by
  unfold game_logic.valid_move_deck_to_pile at h
  rw [Selection.sel_peek_deck] at h
  cases hw : CardVec.peek gs.deck_drawn with
  | none => simp [hw] at h
  | some w =>
    simp only [hw] at h
    cases hp : Selection.sel_peek (.pile p) gs with
    | none => simp [hp] at h
    | some pc =>
      rw [Selection.sel_peek_pile] at hp
      obtain ⟨pl, hpl, _⟩ := Option.map_eq_some'.mp hp
      obtain ⟨rest, hrest⟩ := CardVec.vec_peek_cons _ _ hw
      refine ⟨{ gs with
        deck_drawn := rest
        card_piles := gs.card_piles.set p (w :: pl) }, ?_⟩
      unfold Ui.move_cards
      rw [if_neg (by simp [Selection.same_collection])]
      simp [Selection.card_count, Selection.sel_take, hrest,
        CardVec.take, Selection.sel_receive, hpl, CardPile.receive]

theorem game_logic.card_to_column_col (c : Card) (i : Nat) (gs : GameState)
    (out : Except Unit Unit × GameState)
    (h : game_logic.valid_move_card_to_column c i gs = some out) :
    ∃ col, gs.columns[i]? = some col := by
  unfold game_logic.valid_move_card_to_column at h
  rw [Selection.sel_peek_column] at h
  cases hcol : gs.columns[i]? with
  | none => simp [hcol] at h
  | some col => exact ⟨col, rfl⟩

theorem CardColumn.take_of_le (cc : Nat) (col : CardColumn)
    (h : cc ≤ col.length) :
    CardColumn.take cc col =
      (.ok ((List.map Prod.fst (List.take cc col)).reverse), col.drop cc) := by
  unfold CardColumn.take
  rw [if_pos h]

theorem CardColumn.peek_n_facts (cc : Nat) (col : CardColumn)
    (cards : List Card) (h : CardColumn.peek_n cc col = some cards) :
    cc ≤ col.length ∧
      cards = (List.map Prod.fst (List.take cc col)).reverse := by
  unfold CardColumn.peek_n at h
  split at h
  · injection h with h
    exact ⟨by assumption, h.symm⟩
  · cases h

/-- When `valid_move` accepts a Deck→Column pair, the subsequent transfer's
`take` and `receive` both succeed. -/
theorem Ui.move_ok_deck_column (i k : Nat) (gs : GameState)
    (h : game_logic.valid_move_deck_to_column i gs = some (.ok (), gs)) :
    ∃ gs2, Ui.move_cards .deck (.column i k) gs = some (.ok (), gs2) := by
  unfold game_logic.valid_move_deck_to_column at h
  rw [Selection.sel_peek_deck] at h
  cases hw : CardVec.peek gs.deck_drawn with
  | none => simp [hw] at h
  | some w =>
    simp only [hw] at h
    obtain ⟨col, hcol⟩ := game_logic.card_to_column_col w i gs _ h
    obtain ⟨rest, hrest⟩ := CardVec.vec_peek_cons _ _ hw
    refine ⟨{ gs with
      deck_drawn := rest
      columns := gs.columns.set i ((w, CardState.faceUp) :: col) }, ?_⟩
    unfold Ui.move_cards
    rw [if_neg (by simp [Selection.same_collection])]
    simp [Selection.card_count, Selection.sel_take, hrest, CardVec.take,
      Selection.sel_receive, hcol, CardColumn.receive]

/-- When `valid_move` accepts a Foundation→Column pair, the subsequent
transfer's `take` and `receive` both succeed. -/
theorem Ui.move_ok_pile_column (p i k : Nat) (gs : GameState)
    (h : game_logic.valid_move_pile_to_column p i gs = some (.ok (), gs)) :
    ∃ gs2, Ui.move_cards (.pile p) (.column i k) gs = some (.ok (), gs2) := by
  unfold game_logic.valid_move_pile_to_column at h
  cases hp : Selection.sel_peek (.pile p) gs with
  | none => simp [hp] at h
  | some pc =>
    simp only [hp] at h
    cases pc with
    | none => simp at h
    | some w =>
      obtain ⟨col, hcol⟩ := game_logic.card_to_column_col w i gs _ h
      rw [Selection.sel_peek_pile] at hp
      obtain ⟨pl, hpl, hpk⟩ := Option.map_eq_some'.mp hp
      obtain ⟨rpl, hrpl⟩ : ∃ rpl, pl = w :: rpl := by
        cases pl with
        | nil => cases hpk
        | cons x t =>
          injection hpk with hpk
          exact ⟨t, by rw [hpk]⟩
      refine ⟨{ gs with
        card_piles := gs.card_piles.set p rpl
        columns := gs.columns.set i ((w, CardState.faceUp) :: col) }, ?_⟩
      unfold Ui.move_cards
      rw [if_neg (by simp [Selection.same_collection])]
      simp [Selection.card_count, Selection.sel_take, hpl, hrpl,
        CardPile.take, Selection.sel_receive, hcol, CardColumn.receive]

/-- When `valid_move` accepts a Column→Foundation pair, the subsequent
transfer's `take` and `receive` both succeed. -/
theorem Ui.move_ok_column_pile (i cc p : Nat) (gs : GameState)
    (h : game_logic.valid_move_column_to_pile i cc p gs = some (.ok (), gs)) :
    ∃ gs2, Ui.move_cards (.column i cc) (.pile p) gs = some (.ok (), gs2) := by
  by_cases hcc : cc = 1
  · subst hcc
    unfold game_logic.valid_move_column_to_pile at h
    rw [if_neg (by simp)] at h
    cases hc : Selection.sel_peek (.column i 1) gs with
    | none => simp [hc] at h
    | some oc =>
      simp only [hc] at h
      cases oc with
      | none => simp at h
      | some w =>
        rw [Selection.sel_peek_column] at hc
        obtain ⟨col, hcol, hpk⟩ := Option.map_eq_some'.mp hc
        obtain ⟨s, rcol, hrcol⟩ := CardColumn.col_peek_cons col w hpk
        by_cases hsuit : w.suit.toNat = p
        · simp only [ne_eq, hsuit, not_true_eq_false, if_false] at h
          cases hp : Selection.sel_peek (.pile p) gs with
          | none => simp [hp] at h
          | some pc =>
            rw [Selection.sel_peek_pile] at hp
            obtain ⟨pl, hpl, _⟩ := Option.map_eq_some'.mp hp
            refine ⟨{ gs with
              columns := gs.columns.set i rcol
              card_piles := gs.card_piles.set p (w :: pl) }, ?_⟩
            unfold Ui.move_cards
            rw [if_neg (by simp [Selection.same_collection])]
            simp [Selection.card_count, Selection.sel_take, hcol, hrcol,
              CardColumn.take_of_le 1 ((w, s) :: rcol) (by simp),
              Selection.sel_receive, hpl, CardPile.receive]
        · simp [ne_eq, hsuit] at h
  · rw [game_logic.column_to_pile_cc_ne i cc p gs hcc] at h
    cases h

/-- When `valid_move` accepts a Column→Column pair over distinct columns,
the subsequent transfer's `take` and `receive` both succeed. -/
theorem Ui.move_ok_column_column (j cc i k : Nat) (gs : GameState)
    (hne : j ≠ i)
    (h : game_logic.valid_move_column_to_column j cc i gs =
      some (.ok (), gs)) :
    ∃ gs2, Ui.move_cards (.column j cc) (.column i k) gs =
      some (.ok (), gs2) := by
  unfold game_logic.valid_move_column_to_column at h
  cases hcs : Selection.sel_peek_n (.column j cc) cc gs with
  | none => simp [hcs] at h
  | some ocards =>
    simp only [hcs] at h
    cases ocards with
    | none => simp at h
    | some cards =>
      rw [Selection.sel_peek_n_column] at hcs
      obtain ⟨col', hcol', hpkn⟩ := Option.map_eq_some'.mp hcs
      obtain ⟨hle, hcards⟩ := CardColumn.peek_n_facts cc col' cards hpkn
      cases hhd : List.head? cards with
      | none => simp [hhd] at h
      | some w =>
        simp only [hhd] at h
        obtain ⟨col, hcol⟩ := game_logic.card_to_column_col w i gs _ h
        refine ⟨{ gs with
          columns := (gs.columns.set j (col'.drop cc)).set i
            ((List.map (fun c => (c, CardState.faceUp))
              ((List.map Prod.fst (List.take cc col')).reverse)).reverse ++
              col) }, ?_⟩
        unfold Ui.move_cards
        rw [if_neg (by simp [Selection.same_collection, hne])]
        simp [Selection.card_count, Selection.sel_take, hcol',
          CardColumn.take_of_le cc col' hle, Selection.sel_receive,
          List.getElem?_set_ne hne, hcol, CardColumn.receive,
          List.map_reverse, List.reverse_reverse, List.map_map,
          List.map_take]

/-- Whenever `valid_move` accepts a pair of selections over distinct
collections, the subsequent `move_cards` transfer succeeds. -/
theorem Ui.move_ok_of_valid (f t : Selection) (gs : GameState)
    (h : game_logic.valid_move f t gs = some (.ok (), gs))
    (hne : f.same_collection t = false) :
    ∃ gs2, Ui.move_cards f t gs = some (.ok (), gs2) := by
  cases f with
  | deck =>
    cases t with
    | deck => simp [game_logic.valid_move] at h
    | pile p => exact Ui.move_ok_deck_pile p gs h
    | column i k => exact Ui.move_ok_deck_column i k gs h
  | pile p =>
    cases t with
    | deck => simp [game_logic.valid_move] at h
    | pile q => simp [game_logic.valid_move] at h
    | column i k => exact Ui.move_ok_pile_column p i k gs h
  | column j cc =>
    cases t with
    | deck => simp [game_logic.valid_move] at h
    | pile p => exact Ui.move_ok_column_pile j cc p gs h
    | column i k =>
      have hji : j ≠ i := by
        intro hh
        subst hh
        simp [Selection.same_collection] at hne
      exact Ui.move_ok_column_column j cc i k gs hji h

/-- C4: a rejected checked move attempt leaves the state untouched (whether
`valid_move` or `move_cards` is the step that fails); equivalently, whenever
`valid_move` accepts a pair over distinct collections, the transfer's `take`
and `receive` both succeed. -/
theorem claim_C4_rejected_attempt_unchanged (f t : Selection)
    (gs gs' gs1 : GameState) (r : Except Unit Unit) :
    (Ui.cards_action_move f t gs = some (r, gs') → r = .error () → gs' = gs) ∧
    (game_logic.valid_move f t gs = some (.ok (), gs1) →
      f.same_collection t = false →
      ∃ gs2, Ui.move_cards f t gs = some (.ok (), gs2)) := by
  constructor
  · intro h2 hr
    subst hr
    unfold Ui.cards_action_move at h2
    cases hv : game_logic.valid_move f t gs with
    | none => rw [hv] at h2; cases h2
    | some out =>
      obtain ⟨rv, gsv⟩ := out
      have hgsv : gsv = gs := game_logic.valid_move_state f t gs _ hv
      rw [hgsv] at hv
      rw [hv] at h2
      cases rv with
      | error u =>
        cases u
        simp at h2
        exact h2.symm
      | ok u =>
        cases u
        simp only [] at h2
        cases hsc : f.same_collection t with
        | true =>
          unfold Ui.move_cards at h2
          rw [if_pos hsc] at h2
          simp at h2
          exact h2.symm
        | false =>
          obtain ⟨gs2, hmv⟩ := Ui.move_ok_of_valid f t gs hv hsc
          rw [hmv] at h2
          simp at h2
  · intro hv hsc
    have hgs1 : gs1 = gs := game_logic.valid_move_state f t gs _ hv
    rw [hgs1] at hv
    exact Ui.move_ok_of_valid f t gs hv hsc

/-- Concrete instantiation of `claim_C4_rejected_attempt_unchanged`: on
`gsDemo` a suit-mismatched Deck→Foundation attempt is rejected with the
state unchanged, and an accepted Deck→Foundation pair transfers
successfully. -/
theorem claim_C4_rejected_attempt_unchanged_witness :
    Ui.cards_action_move .deck (.pile 1) gsDemo =
      some (Except.error (), gsDemo) ∧
    gsDemo = gsDemo ∧
    game_logic.valid_move .deck (.pile 0) gsDemo =
      some (Except.ok (), gsDemo) ∧
    Selection.same_collection .deck (.pile 0) = false ∧
    ∃ gs2, Ui.move_cards .deck (.pile 0) gsDemo =
      some (Except.ok (), gs2) :=
  ⟨rfl,
    (claim_C4_rejected_attempt_unchanged .deck (.pile 1) gsDemo gsDemo gsDemo
      (Except.error ())).1 rfl rfl,
    rfl, rfl,
    (claim_C4_rejected_attempt_unchanged .deck (.pile 0) gsDemo gsDemo gsDemo
      (Except.ok ())).2 rfl rfl⟩

/-- C5: a move between two selections in the same collection is always
rejected and leaves the state unchanged, both by `move_cards` itself and by
the full checked attempt, regardless of what the card rules would say. -/
theorem claim_C5_same_collection_rejected (f t : Selection) (gs gs' : GameState)
    (r : Except Unit Unit) (h : f.same_collection t = true)
    (h2 : Ui.cards_action_move f t gs = some (r, gs')) :
    Ui.move_cards f t gs = some (.error (), gs) ∧
      r = .error () ∧ gs' = gs := by
  have hmv : Ui.move_cards f t gs = some (.error (), gs) := by
    unfold Ui.move_cards
    rw [if_pos h]
  refine ⟨hmv, ?_⟩
  unfold Ui.cards_action_move at h2
  cases hv : game_logic.valid_move f t gs with
  | none => rw [hv] at h2; cases h2
  | some out =>
    obtain ⟨rv, gsv⟩ := out
    have hgsv : gsv = gs := game_logic.valid_move_state f t gs _ hv
    rw [hgsv] at hv
    rw [hv] at h2
    cases rv with
    | error u =>
      cases u
      simp at h2
      exact ⟨h2.1.symm, h2.2.symm⟩
    | ok u =>
      cases u
      simp only [] at h2
      rw [hmv] at h2
      simp at h2
      exact ⟨h2.1.symm, h2.2.symm⟩

/-- Concrete instantiation of `claim_C5_same_collection_rejected`: moving
the two-card run of `gsDemo`'s third column onto its own column is a pair
the card rules accept (`valid_move` returns `Ok`), yet the attempt is
rejected with the state unchanged. -/
theorem claim_C5_same_collection_rejected_witness :
    game_logic.valid_move (.column 2 2) (.column 2 2) gsDemo =
      some (Except.ok (), gsDemo) ∧
    Selection.same_collection (.column 2 2) (.column 2 2) = true ∧
    Ui.cards_action_move (.column 2 2) (.column 2 2) gsDemo =
      some (Except.error (), gsDemo) ∧
    (Ui.move_cards (.column 2 2) (.column 2 2) gsDemo =
      some (Except.error (), gsDemo) ∧
      (Except.error () : Except Unit Unit) = .error () ∧ gsDemo = gsDemo) :=
  ⟨rfl, rfl, rfl,
    claim_C5_same_collection_rejected (.column 2 2) (.column 2 2) gsDemo
      gsDemo (Except.error ()) rfl rfl⟩

theorem GameState.deck_hit_draw_eq (n : Nat) (d dr : List Card) :
    GameState.deck_hit_draw n (d, dr) = (d.drop n, (d.take n).reverse ++ dr) := by
  induction n generalizing d dr with
  | zero => simp [GameState.deck_hit_draw]
  | succ m ih =>
    cases d with
    | nil => simp [GameState.deck_hit_draw, ih]
    | cons c rest => simp [GameState.deck_hit_draw, ih]

/-- A `DrawThree` state with an exhausted deck and a one-card waste, on
which `deck_hit` recycles and then immediately redraws. -/
def gsRecycle : GameState :=
  { game_mode := .drawThree
    deck := []
    deck_drawn := [⟨.hearts, .ace⟩]
    columns := [[], [], [], [], [], [], []]
    card_piles := [[], [], [], []] }

/-- C7 counterexample: in `DrawThree` mode with an empty deck and non-empty
waste, `deck_hit` does not leave the waste empty — after recycling it
immediately draws again, so the waste ends up non-empty. -/
theorem claim_C7_counterexample :
    gsRecycle.game_mode = .drawThree ∧ gsRecycle.deck = [] ∧
    gsRecycle.deck_drawn ≠ [] ∧ gsRecycle.deck_hit.deck_drawn ≠ [] := by
  decide

/-- C7 amended: with an empty deck and non-empty waste in `DrawThree` mode,
one `deck_hit` moves the waste into the deck in reversed order and then
draws up to three cards back onto the (cleared) waste; the combined
deck/waste card count — and every column and foundation pile — is
unchanged. -/
theorem claim_C7_amended_recycle (gs : GameState)
    (h1 : gs.game_mode = .drawThree) (h2 : gs.deck = [])
    (h3 : gs.deck_drawn ≠ []) :
    gs.deck_hit = { gs with
      deck := gs.deck_drawn.reverse.drop 3
      deck_drawn := (gs.deck_drawn.reverse.take 3).reverse } ∧
    gs.deck_hit.deck.length + gs.deck_hit.deck_drawn.length =
      gs.deck.length + gs.deck_drawn.length ∧
    gs.deck_hit.columns = gs.columns ∧
    gs.deck_hit.card_piles = gs.card_piles := by
  have heq : gs.deck_hit = { gs with
      deck := gs.deck_drawn.reverse.drop 3
      deck_drawn := (gs.deck_drawn.reverse.take 3).reverse } := by
    unfold GameState.deck_hit
    rw [if_pos ⟨h2, h3⟩]
    simp [h1, GameState.deck_hit_draw_eq]
  refine ⟨heq, ?_, ?_, ?_⟩
  · rw [heq, h2]
    simp [List.length_take]
    omega
  · rw [heq]
  · rw [heq]

/-- Concrete instantiation of `claim_C7_amended_recycle` at a five-card
waste: the deck receives the reversed waste minus the three cards drawn
straight back. -/
theorem claim_C7_amended_recycle_witness :
    gsRecycle.game_mode = .drawThree ∧ gsRecycle.deck = [] ∧
    gsRecycle.deck_drawn ≠ [] ∧
    (gsRecycle.deck_hit = { gsRecycle with
      deck := gsRecycle.deck_drawn.reverse.drop 3
      deck_drawn := (gsRecycle.deck_drawn.reverse.take 3).reverse } ∧
    gsRecycle.deck_hit.deck.length + gsRecycle.deck_hit.deck_drawn.length =
      gsRecycle.deck.length + gsRecycle.deck_drawn.length ∧
    gsRecycle.deck_hit.columns = gsRecycle.columns ∧
    gsRecycle.deck_hit.card_piles = gsRecycle.card_piles) :=
  ⟨rfl, rfl, by decide,
    claim_C7_amended_recycle gsRecycle rfl rfl (by decide)⟩

theorem List.mem_of_getElem?_eq {α : Type _} (l : List α) (i : Nat) (a : α)
    (h : l[i]? = some a) : a ∈ l := by
  obtain ⟨hi, he⟩ := List.getElem?_eq_some.mp h
  exact he ▸ List.getElem_mem hi

theorem CardColumn.face_up_cards_le (col : CardColumn) :
    CardColumn.face_up_cards col ≤ col.length :=
  (List.takeWhile_sublist _).length_le

/-- One-step value of `apply_column_selection_rules` on an in-range column
selection. -/
theorem Selection.apply_rules_column (i cc : Nat) (gs : GameState)
    (debug : Bool) (col : CardColumn) (hcol : gs.columns[i]? = some col) :
    Selection.apply_column_selection_rules (.column i cc) gs debug =
      some (.column i (if col ≠ [] ∧ cc = 0 then 1
        else min cc
          ((if debug then col.length else CardColumn.face_up_cards col) %
            256))) := by
  simp only [Selection.apply_column_selection_rules, hcol]
  split <;> rfl

/-- A state whose only occupied column holds a single face-down card, as
`GameState::init` produces before the turn pipeline's face-up repair. -/
def gsFaceDown : GameState :=
  { game_mode := .drawOne
    deck := []
    deck_drawn := []
    columns := [[(⟨.spades, .ace⟩, .faceDown)], [], [], [], [], [], []]
    card_piles := [[], [], [], []] }

/-- C9 counterexample: on a non-empty all-face-down column (exactly what
`GameState::init` deals), clamping a zero selection yields count 1, and
clamping again yields count 0 — applying `apply_column_selection_rules`
twice differs from applying it once. -/
theorem claim_C9_counterexample :
    ((Selection.apply_column_selection_rules (.column 0 0) gsFaceDown
        false).bind
      fun s => Selection.apply_column_selection_rules s gsFaceDown false) ≠
    Selection.apply_column_selection_rules (.column 0 0) gsFaceDown false := by
  decide

/-- C9 amended: `apply_column_selection_rules` is idempotent on every state
whose columns hold at most 255 cards and — when debug mode is off — whose
non-empty columns all have a face-up top card (the invariant the turn
pipeline's face-up repair establishes); the original claim fails only on
states violating these, e.g. a freshly dealt all-face-down column. -/
theorem claim_C9_amended_clamp_idempotent (gs : GameState) (debug : Bool)
    (sel : Selection)
    (hlen : ∀ col ∈ gs.columns, List.length col ≤ 255)
    (htop : debug = false → ∀ col ∈ gs.columns, col ≠ [] →
      1 ≤ CardColumn.face_up_cards col) :
    ((sel.apply_column_selection_rules gs debug).bind
      fun s => s.apply_column_selection_rules gs debug) =
    sel.apply_column_selection_rules gs debug := by
  cases sel with
  | deck => rfl
  | pile i => rfl
  | column i cc =>
    cases hcol : gs.columns[i]? with
    | none => simp [Selection.apply_column_selection_rules, hcol]
    | some col =>
      have hmem : col ∈ gs.columns := List.mem_of_getElem?_eq _ _ _ hcol
      have hl : List.length col ≤ 255 := hlen col hmem
      have hfu : CardColumn.face_up_cards col ≤ List.length col :=
        CardColumn.face_up_cards_le col
      have hm255 : (if debug then List.length col
          else CardColumn.face_up_cards col) ≤ 255 := by
        cases debug <;> simp <;> omega
      have hmod : (if debug then List.length col
          else CardColumn.face_up_cards col) % 256 =
          (if debug then List.length col
            else CardColumn.face_up_cards col) :=
        Nat.mod_eq_of_lt (by omega)
      have hm1 : col ≠ [] → 1 ≤ (if debug then List.length col
          else CardColumn.face_up_cards col) := by
        intro hne
        by_cases hdb : debug = true
        · rw [if_pos hdb]
          cases col with
          | nil => exact absurd rfl hne
          | cons x t => simp
        · rw [if_neg hdb]
          have hfalse : debug = false := by
            revert hdb
            cases debug <;> simp
          exact htop hfalse col hmem hne
      rw [Selection.apply_rules_column i cc gs debug col hcol,
        Option.some_bind]
      by_cases hc0 : col ≠ [] ∧ cc = 0
      · rw [if_pos hc0,
          Selection.apply_rules_column i 1 gs debug col hcol]
        rw [if_neg (by simp)]
        rw [hmod, Nat.min_eq_left (hm1 hc0.1)]
      · rw [if_neg hc0,
          Selection.apply_rules_column i _ gs debug col hcol]
        by_cases hnil : col = []
        · rw [if_neg (by simp [hnil])]
          rw [min_assoc, min_self]
        · have hcc : cc ≠ 0 := fun hh => hc0 ⟨hnil, hh⟩
          have hm := hm1 hnil
          rw [if_neg (by
            rintro ⟨_, hmin⟩
            rw [hmod] at hmin
            omega)]
          rw [min_assoc, min_self]

/-- A state with two aces stacked on the first column (Ace of Hearts on top
of the Ace of Spades) and empty foundations. -/
def gsTwoAces : GameState :=
  { game_mode := .drawOne
    deck := []
    deck_drawn := []
    columns := [[(⟨.hearts, .ace⟩, .faceUp), (⟨.spades, .ace⟩, .faceUp)],
      [], [], [], [], [], []]
    card_piles := [[], [], [], []] }

/-- C6 counterexample: the Enter-key auto-place on `gsTwoAces`'s first
column moves the Ace of Hearts to foundation 0 and then — because the loop
does not stop at the first accepting foundation — also moves the newly
exposed Ace of Spades to foundation 1: two cards leave the column in a
single invocation, not at most one. -/
theorem claim_C6_counterexample :
    (gsTwoAces.columns[0]?).map List.length = some 2 ∧
    (Ui.enter_key_action (.column 0 1) gsTwoAces).map
        (fun g => (g.columns[0]?).map List.length) = some (some 0) ∧
    (Ui.enter_key_action (.column 0 1) gsTwoAces).map
        (fun g => ((g.card_piles[0]?).map List.length,
          (g.card_piles[1]?).map List.length)) =
      some (some 1, some 1) := by
  decide

/-- When one iteration of the Enter-key foundation loop returns, the probed
column still exists and has lost at most one card. -/
theorem Ui.enter_key_try_pile_len (idx i : Nat) (gs gs' : GameState)
    (col : CardColumn)
    (h : Ui.enter_key_try_pile idx i gs = some gs')
    (hcol : gs.columns[idx]? = some col) :
    ∃ col', gs'.columns[idx]? = some col' ∧
      List.length col ≤ List.length col' + 1 := by
  have hidx : idx < gs.columns.length := (List.getElem?_eq_some.mp hcol).1
  unfold Ui.enter_key_try_pile at h
  cases hv : game_logic.valid_move (.column idx 1) (.pile i) gs with
  | none => rw [hv] at h; cases h
  | some out =>
    obtain ⟨rv, gsv⟩ := out
    have hgsv : gsv = gs := game_logic.valid_move_state _ _ _ _ hv
    rw [hgsv] at hv
    rw [hv] at h
    cases rv with
    | error u =>
      cases u
      simp at h
      exact ⟨col, h ▸ hcol, by omega⟩
    | ok u =>
      cases u
      simp only [] at h
      cases hm : Ui.move_cards (.column idx 1) (.pile i) gs with
      | none => rw [hm] at h; cases h
      | some out2 =>
        obtain ⟨r2, gs2⟩ := out2
        rw [hm] at h
        simp only [Option.some.injEq] at h
        unfold Ui.move_cards at hm
        rw [if_neg (by simp [Selection.same_collection])] at hm
        simp only [Selection.card_count, Selection.sel_take, hcol,
          Option.map_some'] at hm
        cases col with
        | nil =>
          simp only [CardColumn.take, List.length_nil] at hm
          rw [if_neg (by omega)] at hm
          simp only [Option.some.injEq, Prod.mk.injEq] at hm
          refine ⟨[], ?_, by simp⟩
          rw [← h, ← hm.2]
          exact List.getElem?_set_eq_of_lt [] hidx
        | cons e rcol =>
          simp only [CardColumn.take, List.length_cons] at hm
          rw [if_pos (by omega)] at hm
          simp only [List.take_succ_cons, List.take_zero, List.map_cons,
            List.map_nil, List.reverse_cons, List.reverse_nil,
            List.nil_append, List.drop_succ_cons, List.drop_zero] at hm
          cases hp : gs.card_piles[i]? with
          | none =>
            simp only [Selection.sel_receive, hp, Option.map_none'] at hm
            cases hm
          | some pl =>
            simp only [Selection.sel_receive, hp, Option.map_some',
              CardPile.receive, Option.some.injEq, Prod.mk.injEq] at hm
            refine ⟨rcol, ?_, by simp⟩
            rw [← h, ← hm.2]
            exact List.getElem?_set_eq_of_lt rcol hidx

/-- C6 amended: the Enter-key auto-place on a column is the in-order
sequence of the four per-foundation checked attempts — it probes foundation
0, 1, 2, 3 in turn for the column's *current* top card and moves it at
every foundation that accepts, with no break after a success — so up to
four (not at most one) cards can leave the column per invocation. -/
theorem claim_C6_amended_auto_place_no_break (index k : Nat)
    (gs gs' : GameState) (col col' : CardColumn) :
    (Ui.enter_key_action (.column index k) gs =
      (((Ui.enter_key_try_pile index 0 gs).bind
          (Ui.enter_key_try_pile index 1)).bind
        (Ui.enter_key_try_pile index 2)).bind
        (Ui.enter_key_try_pile index 3)) ∧
    (Ui.enter_key_action (.column index k) gs = some gs' →
      gs.columns[index]? = some col → gs'.columns[index]? = some col' →
      List.length col ≤ List.length col' + 4) := by
  have hcomp : Ui.enter_key_action (.column index k) gs =
      (((Ui.enter_key_try_pile index 0 gs).bind
          (Ui.enter_key_try_pile index 1)).bind
        (Ui.enter_key_try_pile index 2)).bind
        (Ui.enter_key_try_pile index 3) := by
    have hassoc : ∀ (x : Option GameState)
        (f g : GameState → Option GameState),
        (x.bind f).bind g = x.bind (fun a => (f a).bind g) := by
      intro x f g
      cases x <;> simp
    simp only [Ui.enter_key_action, List.foldlM, hassoc]
    cases Ui.enter_key_try_pile index 0 gs <;> simp
  refine ⟨hcomp, ?_⟩
  intro h hc hc'
  rw [hcomp] at h
  obtain ⟨g3, h3, hd⟩ := Option.bind_eq_some.mp h
  obtain ⟨g2, h2, hcstep⟩ := Option.bind_eq_some.mp h3
  obtain ⟨g1, h1, hb⟩ := Option.bind_eq_some.mp h2
  obtain ⟨c1, hgc1, l1⟩ := Ui.enter_key_try_pile_len index 0 gs g1 col h1 hc
  obtain ⟨c2, hgc2, l2⟩ := Ui.enter_key_try_pile_len index 1 g1 g2 c1 hb hgc1
  obtain ⟨c3, hgc3, l3⟩ :=
    Ui.enter_key_try_pile_len index 2 g2 g3 c2 hcstep hgc2
  obtain ⟨c4, hgc4, l4⟩ :=
    Ui.enter_key_try_pile_len index 3 g3 gs' c3 hd hgc3
  rw [hc'] at hgc4
  injection hgc4 with he
  subst he
  omega

/-- The state `gsTwoAces` after the Enter-key auto-place: both aces have
left the column, one on each of the first two foundations. -/
def gsTwoAcesAfter : GameState :=
  { game_mode := .drawOne
    deck := []
    deck_drawn := []
    columns := [[], [], [], [], [], [], []]
    card_piles := [[⟨.hearts, .ace⟩], [⟨.spades, .ace⟩], [], []] }

/-- Concrete instantiation of `claim_C6_amended_auto_place_no_break` at
`gsTwoAces`: the invocation empties the two-card column, within the
four-card bound. -/
theorem claim_C6_amended_auto_place_no_break_witness :
    (Ui.enter_key_action (.column 0 1) gsTwoAces =
      (((Ui.enter_key_try_pile 0 0 gsTwoAces).bind
          (Ui.enter_key_try_pile 0 1)).bind
        (Ui.enter_key_try_pile 0 2)).bind
        (Ui.enter_key_try_pile 0 3)) ∧
    Ui.enter_key_action (.column 0 1) gsTwoAces = some gsTwoAcesAfter ∧
    gsTwoAces.columns[0]? =
      some [(⟨.hearts, .ace⟩, .faceUp), (⟨.spades, .ace⟩, .faceUp)] ∧
    gsTwoAcesAfter.columns[0]? = some [] ∧
    List.length ([(⟨Suit.hearts, Rank.ace⟩, CardState.faceUp),
      (⟨Suit.spades, Rank.ace⟩, CardState.faceUp)] : CardColumn) ≤
      List.length ([] : CardColumn) + 4 :=
  ⟨(claim_C6_amended_auto_place_no_break 0 1 gsTwoAces gsTwoAcesAfter
      [] []).1,
    by decide, rfl, rfl,
    (claim_C6_amended_auto_place_no_break 0 1 gsTwoAces gsTwoAcesAfter
      ([(⟨.hearts, .ace⟩, .faceUp), (⟨.spades, .ace⟩, .faceUp)] : CardColumn)
      ([] : CardColumn)).2 (by decide) rfl rfl⟩

/-- Concrete instantiation of `claim_C9_amended_clamp_idempotent` at
`gsDemo` (all non-empty columns have face-up tops): re-clamping a clamped
selection changes nothing. -/
theorem claim_C9_amended_clamp_idempotent_witness :
    (∀ col ∈ gsDemo.columns, List.length col ≤ 255) ∧
    (∀ col ∈ gsDemo.columns, col ≠ [] → 1 ≤ CardColumn.face_up_cards col) ∧
    (((Selection.apply_column_selection_rules (.column 1 0) gsDemo
        false).bind
      fun s => s.apply_column_selection_rules gsDemo false) =
      Selection.apply_column_selection_rules (.column 1 0) gsDemo false) :=
  ⟨by decide, by decide,
    claim_C9_amended_clamp_idempotent gsDemo false (.column 1 0) (by decide)
      (fun _ => by decide)⟩

theorem GameState.deal_column_facts (k : Nat) (deck : List Card)
    (col : CardColumn) (deck' : List Card)
    (h : GameState.deal_column k deck = some (col, deck')) :
    k ≤ deck.length ∧ deck' = deck.drop k := by
  unfold GameState.deal_column at h
  split at h
  · injection h with h
    injection h with h1 h2
    exact ⟨by assumption, h2.symm⟩
  · cases h

theorem GameState.init_deal_sum_le (ks : List Nat) (deck : List Card)
    (cols : List CardColumn) (deck' : List Card)
    (h : GameState.init_deal ks deck = some (cols, deck')) :
    ks.sum ≤ deck.length := by
  induction ks generalizing deck cols deck' with
  | nil => simp
  | cons k ks ih =>
    unfold GameState.init_deal at h
    cases hd : GameState.deal_column k deck with
    | none => rw [hd] at h; simp at h
    | some pr =>
      obtain ⟨col, dk⟩ := pr
      simp only [hd] at h
      cases hrec : GameState.init_deal ks dk with
      | none => rw [hrec] at h; simp at h
      | some pr2 =>
        obtain ⟨hk, hdk⟩ := GameState.deal_column_facts k deck col dk hd
        have hs := ih dk pr2.1 pr2.2 (by rw [hrec])
        subst hdk
        simp only [List.sum_cons]
        have := List.length_drop k deck ▸ hs
        omega

/-- Closed form of `GameState.init` on a deck of at least 28 cards. -/
theorem GameState.init_eq (d : List Card) (h : 28 ≤ d.length) :
    GameState.init d = some
      { game_mode := .drawOne
        deck := d.drop 28
        deck_drawn := []
        columns := [
          ((d.take 1).map (fun c => (c, CardState.faceDown))).reverse,
          (((d.drop 1).take 2).map (fun c => (c, CardState.faceDown))).reverse,
          (((d.drop 3).take 3).map (fun c => (c, CardState.faceDown))).reverse,
          (((d.drop 6).take 4).map (fun c => (c, CardState.faceDown))).reverse,
          (((d.drop 10).take 5).map
            (fun c => (c, CardState.faceDown))).reverse,
          (((d.drop 15).take 6).map
            (fun c => (c, CardState.faceDown))).reverse,
          (((d.drop 21).take 7).map
            (fun c => (c, CardState.faceDown))).reverse]
        card_piles := [[], [], [], []] } := by
  have h1 : GameState.deal_column 1 d =
      some (((d.take 1).map (fun c => (c, CardState.faceDown))).reverse,
        d.drop 1) := by
    unfold GameState.deal_column
    rw [if_pos (by omega)]
  have h2 : GameState.deal_column 2 (d.drop 1) =
      some ((((d.drop 1).take 2).map
        (fun c => (c, CardState.faceDown))).reverse, d.drop 3) := by
    unfold GameState.deal_column
    rw [if_pos (by rw [List.length_drop]; omega), List.drop_drop]
  have h3 : GameState.deal_column 3 (d.drop 3) =
      some ((((d.drop 3).take 3).map
        (fun c => (c, CardState.faceDown))).reverse, d.drop 6) := by
    unfold GameState.deal_column
    rw [if_pos (by rw [List.length_drop]; omega), List.drop_drop]
  have h4 : GameState.deal_column 4 (d.drop 6) =
      some ((((d.drop 6).take 4).map
        (fun c => (c, CardState.faceDown))).reverse, d.drop 10) := by
    unfold GameState.deal_column
    rw [if_pos (by rw [List.length_drop]; omega), List.drop_drop]
  have h5 : GameState.deal_column 5 (d.drop 10) =
      some ((((d.drop 10).take 5).map
        (fun c => (c, CardState.faceDown))).reverse, d.drop 15) := by
    unfold GameState.deal_column
    rw [if_pos (by rw [List.length_drop]; omega), List.drop_drop]
  have h6 : GameState.deal_column 6 (d.drop 15) =
      some ((((d.drop 15).take 6).map
        (fun c => (c, CardState.faceDown))).reverse, d.drop 21) := by
    unfold GameState.deal_column
    rw [if_pos (by rw [List.length_drop]; omega), List.drop_drop]
  have h7 : GameState.deal_column 7 (d.drop 21) =
      some ((((d.drop 21).take 7).map
        (fun c => (c, CardState.faceDown))).reverse, d.drop 28) := by
    unfold GameState.deal_column
    rw [if_pos (by rw [List.length_drop]; omega), List.drop_drop]
  simp only [GameState.init, GameState.init_deal, h1, h2, h3, h4, h5, h6, h7]

/-- C10: `init` deals column `i` exactly `i + 1` cards popped off the end
of the input deck, all `FaceDown` (including each column's top), leaves 24
cards in the deck for a 52-card input, an empty waste and four empty
foundations, and panics (models as `none`) on decks of fewer than 28
cards. -/
theorem claim_C10_init_shape (d : List Card) :
    (d.length < 28 → GameState.init d = none) ∧
    (d.length = 52 → ∀ gs, GameState.init d = some gs →
      gs.game_mode = .drawOne ∧
      gs.deck = d.drop 28 ∧
      gs.deck.length = 24 ∧
      gs.deck_drawn = [] ∧
      gs.card_piles = [[], [], [], []] ∧
      gs.columns.length = 7 ∧
      (∀ i, i < 7 →
        gs.columns[i]? =
          some (((d.drop (i * (i + 1) / 2)).take (i + 1)).map
            (fun c => (c, CardState.faceDown))).reverse) ∧
      (∀ i, i < 7 → (gs.columns[i]?).map List.length = some (i + 1)) ∧
      (∀ col ∈ gs.columns, ∀ e ∈ col, e.2 = CardState.faceDown)) := by
  constructor
  · intro hlen
    cases hinit : GameState.init d with
    | none => rfl
    | some gs =>
      exfalso
      unfold GameState.init at hinit
      cases hdeal : GameState.init_deal [1, 2, 3, 4, 5, 6, 7] d with
      | none => rw [hdeal] at hinit; cases hinit
      | some pr =>
        have hs := GameState.init_deal_sum_le [1, 2, 3, 4, 5, 6, 7] d
          pr.1 pr.2 (by rw [hdeal])
        simp at hs
        omega
  · intro hlen gs hgs
    rw [GameState.init_eq d (by omega)] at hgs
    injection hgs with hgs
    subst hgs
    refine ⟨rfl, rfl, by rw [List.length_drop]; omega, rfl, rfl, rfl,
      ?_, ?_, ?_⟩
    · intro i hi
      interval_cases i <;> rfl
    · intro i hi
      interval_cases i <;>
        simp [List.length_take, List.length_drop] <;> omega
    · intro col hcol e he
      fin_cases hcol <;>
        (rw [List.mem_reverse] at he
         obtain ⟨c, -, rfl⟩ := List.mem_map.mp he
         rfl)

/-- The ordered 52-card deck as a top-first stack: the input
`Card::ordered_deck()` as `GameState::init` receives it. -/
def dInit : List Card := Card.ordered_deck.reverse

/-- The state `GameState::init(Card::ordered_deck())` produces. -/
def gsInit0 : GameState :=
  { game_mode := .drawOne
    deck := dInit.drop 28
    deck_drawn := []
    columns := [
      ((dInit.take 1).map (fun c => (c, CardState.faceDown))).reverse,
      (((dInit.drop 1).take 2).map (fun c => (c, CardState.faceDown))).reverse,
      (((dInit.drop 3).take 3).map (fun c => (c, CardState.faceDown))).reverse,
      (((dInit.drop 6).take 4).map (fun c => (c, CardState.faceDown))).reverse,
      (((dInit.drop 10).take 5).map
        (fun c => (c, CardState.faceDown))).reverse,
      (((dInit.drop 15).take 6).map
        (fun c => (c, CardState.faceDown))).reverse,
      (((dInit.drop 21).take 7).map
        (fun c => (c, CardState.faceDown))).reverse]
    card_piles := [[], [], [], []] }

/-- Concrete instantiation of `claim_C10_init_shape` on the empty deck
(panic) and on the ordered 52-card deck. -/
theorem claim_C10_init_shape_witness :
    ([] : List Card).length < 28 ∧
    GameState.init ([] : List Card) = none ∧
    dInit.length = 52 ∧
    GameState.init dInit = some gsInit0 ∧
    (gsInit0.game_mode = .drawOne ∧
      gsInit0.deck = dInit.drop 28 ∧
      gsInit0.deck.length = 24 ∧
      gsInit0.deck_drawn = [] ∧
      gsInit0.card_piles = [[], [], [], []] ∧
      gsInit0.columns.length = 7 ∧
      (∀ i, i < 7 →
        gsInit0.columns[i]? =
          some (((dInit.drop (i * (i + 1) / 2)).take (i + 1)).map
            (fun c => (c, CardState.faceDown))).reverse) ∧
      (∀ i, i < 7 →
        (gsInit0.columns[i]?).map List.length = some (i + 1)) ∧
      (∀ col ∈ gsInit0.columns, ∀ e ∈ col, e.2 = CardState.faceDown)) :=
  ⟨by decide, (claim_C10_init_shape []).1 (by decide), by decide, by decide,
    (claim_C10_init_shape dInit).2 (by decide) gsInit0 (by decide)⟩

theorem GameState.cardBag_eq (gs : GameState) :
    gs.cardBag = (↑gs.deck : Multiset Card) + ↑gs.deck_drawn +
      ↑(gs.columns.flatMap fun col => col.map Prod.fst) +
      ↑(gs.card_piles.flatMap id) := by
  unfold GameState.cardBag GameState.cardList
  simp

theorem Multiset.take_drop_bag (d : List Card) (n : Nat) :
    (↑(d.take n) : Multiset Card) + ↑(d.drop n) = ↑d := by
  calc (↑(d.take n) : Multiset Card) + ↑(d.drop n)
      = ↑(d.take n ++ d.drop n) := by simp
    _ = ↑d := by rw [List.take_append_drop]

theorem GameState.deck_hit_draw_bag (n : Nat) (d dr : List Card) :
    (↑(GameState.deck_hit_draw n (d, dr)).1 : Multiset Card) +
      ↑(GameState.deck_hit_draw n (d, dr)).2 = ↑d + ↑dr := by
  rw [GameState.deck_hit_draw_eq]
  calc (↑(d.drop n) : Multiset Card) + ↑((d.take n).reverse ++ dr)
      = ↑(d.drop n) + (↑(d.take n) + ↑dr) := by
        simp only [Multiset.coe_add, Multiset.coe_eq_coe]
        refine List.Perm.append_left _ ?_
        exact List.Perm.append_right dr (List.reverse_perm _)
    _ = (↑(d.take n) + ↑(d.drop n)) + ↑dr := by abel
    _ = ↑d + ↑dr := by rw [Multiset.take_drop_bag]

/-- Rust `deck_hit` conserves the multiset of owned cards. -/
theorem GameState.deck_hit_bag (gs : GameState) :
    gs.deck_hit.cardBag = gs.cardBag := by
  unfold GameState.deck_hit
  by_cases hc : gs.deck = [] ∧ gs.deck_drawn ≠ []
  · rw [if_pos hc]
    rw [GameState.cardBag_eq, GameState.cardBag_eq]
    simp only []
    calc (↑(GameState.deck_hit_draw
            (match gs.game_mode with
              | GameMode.drawOne => 1
              | GameMode.drawThree => 3)
            (gs.deck_drawn.reverse, [])).1 : Multiset Card) +
          ↑(GameState.deck_hit_draw
            (match gs.game_mode with
              | GameMode.drawOne => 1
              | GameMode.drawThree => 3)
            (gs.deck_drawn.reverse, [])).2 +
          ↑(gs.columns.flatMap fun col => col.map Prod.fst) +
          ↑(gs.card_piles.flatMap id)
        = ((↑(GameState.deck_hit_draw
            (match gs.game_mode with
              | GameMode.drawOne => 1
              | GameMode.drawThree => 3)
            (gs.deck_drawn.reverse, [])).1 : Multiset Card) +
          ↑(GameState.deck_hit_draw
            (match gs.game_mode with
              | GameMode.drawOne => 1
              | GameMode.drawThree => 3)
            (gs.deck_drawn.reverse, [])).2) +
          (↑(gs.columns.flatMap fun col => col.map Prod.fst) +
          ↑(gs.card_piles.flatMap id)) := by abel
      _ = ((↑gs.deck_drawn.reverse : Multiset Card) + ↑([] : List Card)) +
          (↑(gs.columns.flatMap fun col => col.map Prod.fst) +
          ↑(gs.card_piles.flatMap id)) := by
            rw [GameState.deck_hit_draw_bag]
      _ = (↑gs.deck : Multiset Card) + ↑gs.deck_drawn +
          ↑(gs.columns.flatMap fun col => col.map Prod.fst) +
          ↑(gs.card_piles.flatMap id) := by
            rw [hc.1]
            simp only [Multiset.coe_nil, add_zero, zero_add,
              Multiset.coe_reverse]
            abel
  · rw [if_neg hc]
    rw [GameState.cardBag_eq, GameState.cardBag_eq]
    simp only []
    calc (↑(GameState.deck_hit_draw
            (match gs.game_mode with
              | GameMode.drawOne => 1
              | GameMode.drawThree => 3)
            (gs.deck, gs.deck_drawn)).1 : Multiset Card) +
          ↑(GameState.deck_hit_draw
            (match gs.game_mode with
              | GameMode.drawOne => 1
              | GameMode.drawThree => 3)
            (gs.deck, gs.deck_drawn)).2 +
          ↑(gs.columns.flatMap fun col => col.map Prod.fst) +
          ↑(gs.card_piles.flatMap id)
        = ((↑(GameState.deck_hit_draw
            (match gs.game_mode with
              | GameMode.drawOne => 1
              | GameMode.drawThree => 3)
            (gs.deck, gs.deck_drawn)).1 : Multiset Card) +
          ↑(GameState.deck_hit_draw
            (match gs.game_mode with
              | GameMode.drawOne => 1
              | GameMode.drawThree => 3)
            (gs.deck, gs.deck_drawn)).2) +
          (↑(gs.columns.flatMap fun col => col.map Prod.fst) +
          ↑(gs.card_piles.flatMap id)) := by abel
      _ = ((↑gs.deck : Multiset Card) + ↑gs.deck_drawn) +
          (↑(gs.columns.flatMap fun col => col.map Prod.fst) +
          ↑(gs.card_piles.flatMap id)) := by
            rw [GameState.deck_hit_draw_bag]
      _ = (↑gs.deck : Multiset Card) + ↑gs.deck_drawn +
          ↑(gs.columns.flatMap fun col => col.map Prod.fst) +
          ↑(gs.card_piles.flatMap id) := by abel

theorem CardVec.vec_take_ok (n : Nat) (v cards v' : List Card)
    (h : CardVec.take n v = (.ok cards, v')) :
    ∃ c, v = c :: v' ∧ cards = [c] := by
  cases n with
  | zero => simp [CardVec.take] at h
  | succ m =>
    cases m with
    | succ k => simp [CardVec.take] at h
    | zero =>
      cases v with
      | nil => simp [CardVec.take] at h
      | cons c rest =>
        simp [CardVec.take] at h
        exact ⟨c, by rw [h.2], by rw [← h.1]⟩

theorem CardPile.pile_take_ok (n : Nat) (v cards v' : List Card)
    (h : CardPile.take n v = (.ok cards, v')) :
    ∃ c, v = c :: v' ∧ cards = [c] := by
  cases n with
  | zero => simp [CardPile.take] at h
  | succ m =>
    cases m with
    | succ k => simp [CardPile.take] at h
    | zero =>
      cases v with
      | nil => simp [CardPile.take] at h
      | cons c rest =>
        simp [CardPile.take] at h
        exact ⟨c, by rw [h.2], by rw [← h.1]⟩

theorem CardColumn.col_take_ok (n : Nat) (col : CardColumn) (cards : List Card)
    (col' : CardColumn) (h : CardColumn.take n col = (.ok cards, col')) :
    n ≤ List.length col ∧
      cards = (List.take n (List.map Prod.fst col)).reverse ∧
      col' = List.drop n col := by
  unfold CardColumn.take at h
  split at h
  · simp at h
    exact ⟨by assumption, h.1.symm, h.2.symm⟩
  · simp at h

theorem CardVec.vec_receive_ok (cards v v' : List Card) (u : Unit)
    (h : CardVec.receive cards v = (.ok u, v')) :
    ∃ c, cards = [c] ∧ v' = c :: v := by
  cases cards with
  | nil => simp [CardVec.receive] at h
  | cons c t =>
    cases t with
    | nil =>
      simp [CardVec.receive] at h
      exact ⟨c, rfl, h.symm⟩
    | cons c2 t2 => simp [CardVec.receive] at h

theorem CardPile.pile_receive_ok (cards : List Card) (v v' : CardPile) (u : Unit)
    (h : CardPile.receive cards v = (.ok u, v')) :
    ∃ c, cards = [c] ∧ v' = c :: v := by
  cases cards with
  | nil => simp [CardPile.receive] at h
  | cons c t =>
    cases t with
    | nil =>
      simp [CardPile.receive] at h
      exact ⟨c, rfl, h.symm⟩
    | cons c2 t2 => simp [CardPile.receive] at h

theorem List.flatMap_set_bag {α β : Type _} (f : α → List β) (l : List α)
    (i : Nat) (a a' : α) (h : l[i]? = some a) :
    (↑((l.set i a').flatMap f) : Multiset β) + ↑(f a) =
      ↑(l.flatMap f) + ↑(f a') := by
  induction l generalizing i with
  | nil => cases h
  | cons x xs ih =>
    cases i with
    | zero =>
      simp only [List.getElem?_cons_zero, Option.some.injEq] at h
      subst h
      simp only [List.set_cons_zero, List.flatMap_cons,
        ← Multiset.coe_add]
      abel
    | succ n =>
      simp only [List.getElem?_cons_succ] at h
      have hih := ih n h
      simp only [List.set_cons_succ, List.flatMap_cons, ← Multiset.coe_add]
      rw [add_assoc, hih, ← add_assoc]

theorem Selection.sel_take_ok_bag (sel : Selection) (n : Nat)
    (gs gs1 : GameState) (cards : List Card)
    (h : Selection.sel_take sel n gs = some (.ok cards, gs1)) :
    gs.cardBag = ↑cards + gs1.cardBag := by
  cases sel with
  | deck =>
    simp only [Selection.sel_take] at h
    cases ht : CardVec.take n gs.deck_drawn with
    | mk r v =>
      simp only [ht, Option.some.injEq, Prod.mk.injEq] at h
      obtain ⟨hr, hgs1⟩ := h
      subst hr
      obtain ⟨c, hdr, hcards⟩ := CardVec.vec_take_ok n gs.deck_drawn cards v ht
      subst hcards
      rw [← hgs1, GameState.cardBag_eq, GameState.cardBag_eq]
      simp only []
      rw [hdr]
      have hcons : (↑(c :: v) : Multiset Card) = ↑([c] : List Card) + ↑v := by
        rw [Multiset.coe_add]
        rfl
      rw [hcons]
      abel
  | pile i =>
    simp only [Selection.sel_take] at h
    cases hpl : gs.card_piles[i]? with
    | none => rw [hpl] at h; cases h
    | some pl =>
      rw [hpl] at h
      simp only [Option.map_some'] at h
      cases ht : CardPile.take n pl with
      | mk r pl' =>
        simp only [ht, Option.some.injEq, Prod.mk.injEq] at h
        obtain ⟨hr, hgs1⟩ := h
        subst hr
        obtain ⟨c, hpl', hcards⟩ := CardPile.pile_take_ok n pl cards pl' ht
        subst hcards
        rw [← hgs1, GameState.cardBag_eq, GameState.cardBag_eq]
        simp only []
        have hb := List.flatMap_set_bag id gs.card_piles i pl pl' hpl
        simp only [id] at hb
        have hsplit : (↑pl : Multiset Card) = ↑([c] : List Card) + ↑pl' := by
          rw [hpl', Multiset.coe_add]
          rfl
        have h2 : (↑((gs.card_piles.set i pl').flatMap id) : Multiset Card) +
            ↑([c] : List Card) = ↑(gs.card_piles.flatMap id) := by
          have h1 : ((↑((gs.card_piles.set i pl').flatMap id) : Multiset Card) +
              ↑([c] : List Card)) + ↑pl' =
              ↑(gs.card_piles.flatMap id) + ↑pl' := by
            rw [add_assoc, ← hsplit]
            simpa [id] using hb
          exact add_right_cancel h1
        rw [← h2]
        abel
  | column i k =>
    simp only [Selection.sel_take] at h
    cases hcol : gs.columns[i]? with
    | none => rw [hcol] at h; cases h
    | some col =>
      rw [hcol] at h
      simp only [Option.map_some'] at h
      cases ht : CardColumn.take n col with
      | mk r col' =>
        simp only [ht, Option.some.injEq, Prod.mk.injEq] at h
        obtain ⟨hr, hgs1⟩ := h
        subst hr
        obtain ⟨hle, hcards, hcol'⟩ := CardColumn.col_take_ok n col cards col' ht
        subst hcards
        subst hcol'
        rw [← hgs1, GameState.cardBag_eq, GameState.cardBag_eq]
        simp only []
        have hb := List.flatMap_set_bag (fun c0 => List.map Prod.fst c0)
          gs.columns i col (List.drop n col) hcol
        have hsplit : (↑(List.map Prod.fst col) : Multiset Card) =
            ↑((List.take n (List.map Prod.fst col)).reverse) +
            ↑(List.map Prod.fst (List.drop n col)) := by
          rw [Multiset.coe_reverse, List.map_drop, Multiset.take_drop_bag]
        have h2 : (↑((gs.columns.set i (List.drop n col)).flatMap
              fun c0 => List.map Prod.fst c0) : Multiset Card) +
            ↑((List.take n (List.map Prod.fst col)).reverse) =
            ↑(gs.columns.flatMap fun c0 => List.map Prod.fst c0) := by
          have h1 : ((↑((gs.columns.set i (List.drop n col)).flatMap
                fun c0 => List.map Prod.fst c0) : Multiset Card) +
              ↑((List.take n (List.map Prod.fst col)).reverse)) +
              ↑(List.map Prod.fst (List.drop n col)) =
              ↑(gs.columns.flatMap fun c0 => List.map Prod.fst c0) +
              ↑(List.map Prod.fst (List.drop n col)) := by
            rw [add_assoc, ← hsplit]
            exact hb
          exact add_right_cancel h1
        rw [← h2]
        abel

theorem Selection.sel_receive_ok_bag (sel : Selection) (cards : List Card)
    (gs1 gs2 : GameState) (u : Unit)
    (h : Selection.sel_receive sel cards gs1 = some (.ok u, gs2)) :
    gs2.cardBag = ↑cards + gs1.cardBag := by
  cases sel with
  | deck =>
    simp only [Selection.sel_receive] at h
    cases hrc : CardVec.receive cards gs1.deck_drawn with
    | mk r v =>
      simp only [hrc, Option.some.injEq, Prod.mk.injEq] at h
      obtain ⟨hru, hgs2⟩ := h
      obtain ⟨c, hc, hv⟩ := CardVec.vec_receive_ok cards gs1.deck_drawn v u
        (by rw [hrc, hru])
      subst hc
      rw [← hgs2, GameState.cardBag_eq, GameState.cardBag_eq]
      simp only []
      rw [hv]
      have hcons : (↑(c :: gs1.deck_drawn) : Multiset Card) =
          ↑([c] : List Card) + ↑gs1.deck_drawn := by
        rw [Multiset.coe_add]
        rfl
      rw [hcons]
      abel
  | pile i =>
    simp only [Selection.sel_receive] at h
    cases hpl : gs1.card_piles[i]? with
    | none => rw [hpl] at h; cases h
    | some pl =>
      rw [hpl] at h
      simp only [Option.map_some'] at h
      cases hrc : CardPile.receive cards pl with
      | mk r pl' =>
        simp only [hrc, Option.some.injEq, Prod.mk.injEq] at h
        obtain ⟨hru, hgs2⟩ := h
        obtain ⟨c, hc, hpl'⟩ := CardPile.pile_receive_ok cards pl pl' u
          (by rw [hrc, hru])
        subst hc
        subst hpl'
        rw [← hgs2, GameState.cardBag_eq, GameState.cardBag_eq]
        simp only []
        have hb := List.flatMap_set_bag id gs1.card_piles i pl (c :: pl) hpl
        simp only [id] at hb
        have h2 : (↑((gs1.card_piles.set i (c :: pl)).flatMap id) :
            Multiset Card) =
            ↑(gs1.card_piles.flatMap id) + ↑([c] : List Card) := by
          have hcons : (↑(c :: pl) : Multiset Card) =
              ↑([c] : List Card) + ↑pl := by
            rw [Multiset.coe_add]
            rfl
          have h1 : (↑((gs1.card_piles.set i (c :: pl)).flatMap id) :
              Multiset Card) + ↑pl =
              (↑(gs1.card_piles.flatMap id) + ↑([c] : List Card)) + ↑pl := by
            rw [hb, hcons]
            abel
          exact add_right_cancel h1
        rw [h2]
        abel
  | column i k =>
    simp only [Selection.sel_receive] at h
    cases hcol : gs1.columns[i]? with
    | none => rw [hcol] at h; cases h
    | some col =>
      rw [hcol] at h
      simp only [Option.map_some', CardColumn.receive, Option.some.injEq,
        Prod.mk.injEq] at h
      obtain ⟨-, hgs2⟩ := h
      rw [← hgs2, GameState.cardBag_eq, GameState.cardBag_eq]
      simp only []
      have hb := List.flatMap_set_bag (fun c0 => List.map Prod.fst c0)
        gs1.columns i col
        ((List.map (fun c => (c, CardState.faceUp)) cards).reverse ++ col)
        hcol
      have hnew : (↑(List.map Prod.fst
            ((List.map (fun c => (c, CardState.faceUp)) cards).reverse ++
              col)) : Multiset Card) =
          ↑cards + ↑(List.map Prod.fst col) := by
        rw [List.map_append, ← Multiset.coe_add, List.map_reverse,
          Multiset.coe_reverse, List.map_map]
        congr 1
        have hfun : (Prod.fst ∘ fun c : Card => (c, CardState.faceUp)) =
            fun c : Card => c := rfl
        rw [hfun, List.map_id']
      have h2 : (↑((gs1.columns.set i
            ((List.map (fun c => (c, CardState.faceUp)) cards).reverse ++
              col)).flatMap fun c0 => List.map Prod.fst c0) :
            Multiset Card) =
          ↑(gs1.columns.flatMap fun c0 => List.map Prod.fst c0) +
            ↑cards := by
        have h1 : (↑((gs1.columns.set i
              ((List.map (fun c => (c, CardState.faceUp)) cards).reverse ++
                col)).flatMap fun c0 => List.map Prod.fst c0) :
              Multiset Card) + ↑(List.map Prod.fst col) =
            (↑(gs1.columns.flatMap fun c0 => List.map Prod.fst c0) +
              ↑cards) + ↑(List.map Prod.fst col) := by
          rw [hb, hnew]
          abel
        exact add_right_cancel h1
      rw [h2]
      abel

/-- A successful `move_cards` conserves the multiset of owned cards. -/
theorem Ui.move_cards_ok_bag (f t : Selection) (gs gs' : GameState)
    (h : Ui.move_cards f t gs = some (.ok (), gs')) :
    gs'.cardBag = gs.cardBag := by
  unfold Ui.move_cards at h
  split at h
  · simp at h
  · cases hts : Selection.sel_take f f.card_count gs with
    | none => rw [hts] at h; cases h
    | some pr =>
      obtain ⟨r1, gs1⟩ := pr
      rw [hts] at h
      cases r1 with
      | error u =>
        simp at h
      | ok cards =>
        simp only [] at h
        cases hrc : Selection.sel_receive t cards gs1 with
        | none => rw [hrc] at h; cases h
        | some pr2 =>
          obtain ⟨r2, gs2⟩ := pr2
          rw [hrc] at h
          simp only [Option.some.injEq, Prod.mk.injEq] at h
          obtain ⟨hr2, hgs2⟩ := h
          subst hr2
          subst hgs2
          have h1 := Selection.sel_take_ok_bag f f.card_count gs gs1 cards hts
          have h2 := Selection.sel_receive_ok_bag t cards gs1 gs2 () hrc
          rw [h1, h2]

/-- C1 counterexample: on the freshly dealt (invariant-satisfying) state,
the raw `move_cards` call taking the two cards of column 1 into foundation 0
has its `take` succeed and its `receive` fail; the two taken cards are
dropped, so the resulting state violates the 52-card ownership invariant. -/
theorem claim_C1_counterexample :
    gsInit0.Invariant ∧
    (Ui.move_cards (.column 1 2) (.pile 0) gsInit0).map
        (fun out => (out.1, decide out.2.Invariant)) =
      some (Except.error (), false) := by
  decide

/-- The state after legally moving one card from column 1 onto column 0 of
the freshly dealt state. -/
def gsMove : GameState :=
  ((Ui.move_cards (.column 1 1) (.column 0 0) gsInit0).map Prod.snd).getD
    gsInit0

/-- C1 amended: `deck_hit` and every *successful* `move_cards` call preserve
the 52-card ownership invariant (checked calls always succeed by C4); a
*failing* raw `move_cards` whose `take` succeeds and `receive` fails drops
the taken cards and violates it, as the counterexample shows. -/
theorem claim_C1_amended_card_conservation (gs : GameState)
    (h : gs.Invariant) (f t : Selection) (gs' : GameState) :
    gs.deck_hit.Invariant ∧
    (Ui.move_cards f t gs = some (.ok (), gs') → gs'.Invariant) := by
  constructor
  · unfold GameState.Invariant at *
    rw [GameState.deck_hit_bag]
    exact h
  · intro hm
    unfold GameState.Invariant at *
    rw [Ui.move_cards_ok_bag f t gs gs' hm]
    exact h

/-- Concrete instantiation of `claim_C1_amended_card_conservation` on the
freshly dealt state: a deck hit and a legal one-card column move both keep
all 52 cards accounted for. -/
theorem claim_C1_amended_card_conservation_witness :
    gsInit0.Invariant ∧
    gsInit0.deck_hit.Invariant ∧
    Ui.move_cards (.column 1 1) (.column 0 0) gsInit0 =
      some (Except.ok (), gsMove) ∧
    gsMove.Invariant :=
  ⟨by decide,
    (claim_C1_amended_card_conservation gsInit0 (by decide)
      (.column 1 1) (.column 0 0) gsMove).1,
    by decide,
    (claim_C1_amended_card_conservation gsInit0 (by decide)
      (.column 1 1) (.column 0 0) gsMove).2 (by decide)⟩
